import Mathlib

/-!
Verification of the finit configuration/reload core (src/conf.c and helpers)
via a shallow embedding in Lean.  C strings are modelled as `String`/`List Char`
(NUL-free, end of list = terminator), machine integers as `Nat`/`Int` (no value
in scope ever overflows its C type), external effects (syscalls, the service
registry, the cgroup manager) as an explicit call trace, and the filesystem,
`glob(3)`, `realpath(3)` and `lstat(2)` as components of a `World` record.
-/

namespace Finit

/-- ctype.h `isblank`: space or horizontal tab. -/
def isblankc (c : Char) : Bool := c = ' ' || c = '\t'

/-- ctype.h `isspace` (C locale): space, \t, \n, \v, \f, \r. -/
def isspacec (c : Char) : Bool :=
  c = ' ' || c = '\t' || c = '\n' || c = '\x0b' || c = '\x0c' || c = '\r'

/-- Modelled from libite (not under src/): `string_compare(a, b)` is a
case-insensitive equality test on NUL-terminated strings. -/
def string_compare (a b : String) : Bool :=
  decide (a.toList.map Char.toLower = b.toList.map Char.toLower)

/-- libite `SETBIT(v, n)`: `v |= (1 << n)`. -/
def SETBIT (v n : Nat) : Nat := v ||| 2 ^ n

/-- libite `CLRBIT(v, n)`: `v &= ~(1 << n)`, written without complement as
`v ^ (v & (1 << n))`, which agrees with the C at every bit width. -/
def CLRBIT (v n : Nat) : Nat := v ^^^ (v &&& 2 ^ n)

/-- Modelled from the spec (finit.h is not under src/): the dedicated
bootstrap runlevel `S`, one past the numeric levels 0-9. -/
def INIT_LEVEL : Nat := 10

/-- The `level` a scanned character stands for in `conf_parse_runlevels`
(src/conf.c:515-518): `'s'`/`'S'` alias the bootstrap level, anything else is
`lvl - '0'` in C's signed arithmetic. -/
def rl_level (lvl : Char) : Int :=
  if lvl = 's' ∨ lvl = 'S' then (INIT_LEVEL : Int) else (lvl.toNat : Int) - 48

/-- The scanning loop of `conf_parse_runlevels` (src/conf.c:503-527).
The list holds the characters from index 1 on; reaching the end of the
list is the NUL terminator case. -/
def runlevels_loop : List Char → Bool → Nat → Nat
  | [], _, bitmask => bitmask
  | lvl :: rest, notFlag, bitmask =>
    if lvl = ']' then bitmask
    else if lvl = '!' then runlevels_loop rest true 0x7FE
    else if rl_level lvl > (INIT_LEVEL : Int) ∨ rl_level lvl < 0 then
      runlevels_loop rest notFlag bitmask
    else if notFlag then
      runlevels_loop rest notFlag (CLRBIT bitmask (rl_level lvl).toNat)
    else
      runlevels_loop rest notFlag (SETBIT bitmask (rl_level lvl).toNat)

/-- `conf_parse_runlevels` (src/conf.c:496-530): a null spec defaults to
`"[234]"`; scanning starts at index 1 (index 0, normally `[`, is skipped). -/
def conf_parse_runlevels (runlevels : Option String) : Nat :=
  runlevels_loop ((runlevels.getD "[234]").toList.drop 1) false 0

example : conf_parse_runlevels (some "[!6]") = 0x7BE := by decide
example : conf_parse_runlevels (some "[234]") = 28 := by decide
example : conf_parse_runlevels none = 28 := by decide
example : conf_parse_runlevels (some "[:]") = 1024 := by decide

/-- The characters that can contribute bit `b` to a decoded runlevel mask:
a digit sets its own level's bit, `s`/`S` the bootstrap bit, `:` also the
bootstrap bit (`':' - '0' = 10` slips through the range check), and `!`
initialises the mask to bits 1-10. -/
def rl_char_bit (c : Char) (b : Nat) : Prop :=
  (c.isDigit = true ∧ b + 48 = c.toNat)
  ∨ ((c = 's' ∨ c = 'S' ∨ c = ':') ∧ b = INIT_LEVEL)
  ∨ (c = '!' ∧ 1 ≤ b ∧ b ≤ 10)

lemma testBit_SETBIT {acc l b : Nat} (h : (SETBIT acc l).testBit b = true) :
    acc.testBit b = true ∨ b = l := by
  rw [SETBIT, Nat.testBit_lor] at h
  rcases Bool.or_eq_true_iff.mp h with h | h
  · exact Or.inl h
  · right
    by_contra hne
    rw [Nat.testBit_two_pow_of_ne fun he => hne he.symm] at h
    exact Bool.false_ne_true h

lemma testBit_CLRBIT {acc l b : Nat} (h : (CLRBIT acc l).testBit b = true) :
    acc.testBit b = true := by
  rw [CLRBIT, Nat.testBit_xor, Nat.testBit_land] at h
  revert h
  cases hb : acc.testBit b <;> simp

lemma testBit_x7FE {b : Nat} (h : Nat.testBit 0x7FE b = true) : 1 ≤ b ∧ b ≤ 10 := by
  have hb : b < 11 := by
    by_contra hb
    push_neg at hb
    have hf : Nat.testBit 0x7FE b = false :=
      Nat.testBit_eq_false_of_lt
        (calc (0x7FE : Nat) < 2 ^ 11 := by norm_num
          _ ≤ 2 ^ b := Nat.pow_le_pow_right (by norm_num) hb)
    simp [hf] at h
  interval_cases b <;> simp_all

lemma char_colon_of_toNat {c : Char} (h : c.toNat = 58) : c = ':' := by
  obtain ⟨⟨⟨v, hv⟩⟩, hvalid⟩ := c
  have hvv : v = 58 := h
  subst hvv
  rfl

lemma char_isDigit_of_toNat {c : Char} (h1 : 48 ≤ c.toNat) (h2 : c.toNat ≤ 57) :
    c.isDigit = true := by
  obtain ⟨⟨⟨v, hv⟩⟩, hvalid⟩ := c
  have h1v : 48 ≤ v := h1
  have h2v : v ≤ 57 := h2
  interval_cases v <;> rfl

lemma rl_char_bit_of_level {c : Char} {b : Nat}
    (hne : c ≠ ']') (hnb : c ≠ '!')
    (hin : ¬(rl_level c > (INIT_LEVEL : Int) ∨ rl_level c < 0))
    (hb : b = (rl_level c).toNat) : rl_char_bit c b := by
  push_neg at hin
  obtain ⟨hle, hge⟩ := hin
  by_cases hs : c = 's' ∨ c = 'S'
  · refine Or.inr (Or.inl ⟨Or.imp id Or.inl hs, ?_⟩)
    rw [hb, rl_level, if_pos hs]
    rfl
  · have hlv : rl_level c = (c.toNat : Int) - 48 := by rw [rl_level, if_neg hs]
    rw [hlv] at hle hge
    have h48 : 48 ≤ c.toNat := by omega
    have h58 : c.toNat ≤ 58 := by
      have : (c.toNat : Int) ≤ 58 := by
        have := hle
        simp [INIT_LEVEL] at this
        omega
      exact_mod_cast this
    have hbv : b = c.toNat - 48 := by rw [hb, hlv]; omega
    rcases Nat.lt_or_ge c.toNat 58 with h57 | h58'
    · exact Or.inl ⟨char_isDigit_of_toNat h48 (by omega), by omega⟩
    · have h58e : c.toNat = 58 := le_antisymm h58 h58'
      exact Or.inr (Or.inl ⟨Or.inr (Or.inr (char_colon_of_toNat h58e)),
        by rw [hbv, h58e]; rfl⟩)

lemma runlevels_loop_bits :
    ∀ (cs : List Char) (nf : Bool) (acc b : Nat),
      (runlevels_loop cs nf acc).testBit b = true →
      acc.testBit b = true ∨ ∃ c ∈ cs, rl_char_bit c b := by
  intro cs
  induction cs with
  | nil =>
    intro nf acc b h
    exact Or.inl (by simpa [runlevels_loop] using h)
  | cons c rest ih =>
    intro nf acc b h
    rw [runlevels_loop] at h
    by_cases hbr : c = ']'
    · rw [if_pos hbr] at h
      exact Or.inl h
    rw [if_neg hbr] at h
    by_cases hbang : c = '!'
    · rw [if_pos hbang] at h
      rcases ih true 0x7FE b h with h7 | ⟨c', hc', hj⟩
      · obtain ⟨hb1, hb2⟩ := testBit_x7FE h7
        exact Or.inr ⟨c, List.mem_cons_self _ _, Or.inr (Or.inr ⟨hbang, hb1, hb2⟩)⟩
      · exact Or.inr ⟨c', List.mem_cons_of_mem _ hc', hj⟩
    rw [if_neg hbang] at h
    by_cases hrange : rl_level c > (INIT_LEVEL : Int) ∨ rl_level c < 0
    · rw [if_pos hrange] at h
      rcases ih nf acc b h with ha | ⟨c', hc', hj⟩
      · exact Or.inl ha
      · exact Or.inr ⟨c', List.mem_cons_of_mem _ hc', hj⟩
    rw [if_neg hrange] at h
    cases nf with
    | true =>
      rw [if_pos rfl] at h
      rcases ih true _ b h with ha | ⟨c', hc', hj⟩
      · exact Or.inl (testBit_CLRBIT ha)
      · exact Or.inr ⟨c', List.mem_cons_of_mem _ hc', hj⟩
    | false =>
      rw [if_neg Bool.false_ne_true] at h
      rcases ih false _ b h with ha | ⟨c', hc', hj⟩
      · rcases testBit_SETBIT ha with ha' | hbl
        · exact Or.inl ha'
        · exact Or.inr ⟨c, List.mem_cons_self _ _,
            rl_char_bit_of_level hbr hbang hrange hbl⟩
      · exact Or.inr ⟨c', List.mem_cons_of_mem _ hc', hj⟩

/-- Claim C5, corrected statement: every bit set by `conf_parse_runlevels`
is accounted for by a digit, `s`/`S`, the out-of-grammar character `:`
(which the range check also lets set the bootstrap bit), or a leading-`!`
initialisation of bits 1-10; and `"[234]"` as well as a null spec decode to
exactly the level set 2,3,4 (bitmask 28). -/
theorem conf_parse_runlevels_bits :
    (∀ (s : String) (b : Nat),
        (conf_parse_runlevels (some s)).testBit b = true →
        ∃ c ∈ s.toList.drop 1, rl_char_bit c b)
    ∧ conf_parse_runlevels (some "[234]") = 28
    ∧ conf_parse_runlevels none = 28 := by
  refine ⟨?_, by decide, by decide⟩
  intro s b h
  rw [conf_parse_runlevels] at h
  rcases runlevels_loop_bits _ false 0 b h with h0 | hj
  · simp [Nat.testBit] at h0
  · exact hj

/-- Claim C5's witness: the universal part of `conf_parse_runlevels_bits`
applied at the spec `"[2]"` and bit 2. -/
theorem conf_parse_runlevels_bits_witness :
    ∃ c ∈ "[2]".toList.drop 1, rl_char_bit c 2 :=
  conf_parse_runlevels_bits.1 "[2]" 2 (by decide)

/-- Claim C5, counterexample to the claim as stated: decoding `"[:]"` sets
bit 10 although no character of the spec is a digit or `s`/`S`. -/
theorem conf_parse_runlevels_colon_cex :
    (conf_parse_runlevels (some "[:]")).testBit 10 = true
    ∧ ∀ c ∈ "[:]".toList, ¬(c.isDigit = true ∨ c = 's' ∨ c = 'S') := by
  refine ⟨by decide, ?_⟩
  decide

/-- Claim C4, corrected statement: decoding `"[!6]"` yields the mask `0x7BE`:
bit 6 is cleared and bits 1-5 and 7-9 are set, but bit 0 is clear (the `!`
initialisation `0x7FE` excludes level 0) and the bootstrap bit 10 is set. -/
theorem conf_parse_runlevels_not6_mask :
    conf_parse_runlevels (some "[!6]") = 0x7BE
    ∧ (0x7BE : Nat).testBit 6 = false
    ∧ (0x7BE : Nat).testBit 0 = false
    ∧ (0x7BE : Nat).testBit 1 = true
    ∧ (0x7BE : Nat).testBit 2 = true
    ∧ (0x7BE : Nat).testBit 3 = true
    ∧ (0x7BE : Nat).testBit 4 = true
    ∧ (0x7BE : Nat).testBit 5 = true
    ∧ (0x7BE : Nat).testBit 7 = true
    ∧ (0x7BE : Nat).testBit 8 = true
    ∧ (0x7BE : Nat).testBit 9 = true
    ∧ (0x7BE : Nat).testBit 10 = true := by
  decide

/-- Claim C4, counterexample to the claim as stated: decoding `"[!6]"` does
not set bit 0, so bits 0-5 are not all set. -/
theorem conf_parse_runlevels_not6_cex :
    (conf_parse_runlevels (some "[!6]")).testBit 0 = false := by
  decide

/-! ## Resource-limit table (src/conf.c:577-703) -/

/-- `strtok(3)` splitting: maximal runs of non-delimiter characters, empty
tokens dropped.  `cur` accumulates the current token reversed. -/
def strtok_aux (delims : List Char) : List Char → List Char → List (List Char)
  | cur, [] => if cur = [] then [] else [cur.reverse]
  | cur, c :: rest =>
    if c ∈ delims then
      if cur = [] then strtok_aux delims [] rest
      else cur.reverse :: strtok_aux delims [] rest
    else strtok_aux delims (c :: cur) rest

/-- All tokens a `strtok` loop over `s` with delimiter set `delims` yields. -/
def strtok_all (delims : List Char) (s : String) : List String :=
  (strtok_aux delims [] s.toList).map List.asString

/-- Decimal value of a digit string, as `strtoll` accumulates it. -/
def natOfDigits (ds : List Char) : Nat :=
  ds.foldl (fun a c => a * 10 + (c.toNat - 48)) 0

/-- Modelled from `strtonum(3)` (libbsd, not under src/): optional leading
whitespace and sign, a run of decimal digits consuming the whole string,
result within `[minval, maxval]`; `none` is the `err` out-parameter set. -/
def strtonum (s : String) (minval maxval : Int) : Option Int :=
  let cs := s.toList.dropWhile isspacec
  let p : Int × List Char :=
    match cs with
    | '-' :: r => (-1, r)
    | '+' :: r => (1, r)
    | _ => (1, cs)
  if p.2 = [] ∨ ¬(p.2.all Char.isDigit) then none
  else
    let v : Int := p.1 * natOfDigits p.2
    if v < minval ∨ v > maxval then none else some v

/-- One `struct rlimit`: soft (`rlim_cur`) and hard (`rlim_max`) bound.
`rlim_t` is unsigned 64-bit; no value in scope overflows it. -/
structure rlimit where
  rlim_cur : Nat
  rlim_max : Nat
deriving Repr, DecidableEq

/-- `RLIM_INFINITY`, the unlimited sentinel of `sys/resource.h`. -/
def RLIM_INFINITY : Nat := 2 ^ 64 - 1

/-- Modelled from sys/resource.h (Linux): number of resource kinds. -/
def RLIMIT_NLIMITS : Nat := 16

/-- Modelled from sys/resource.h (Linux): the open-files resource. -/
def RLIMIT_NOFILE : Nat := 7

/-- The `rlimit_names` table (src/conf.c:582-603) with the Linux values of
the `RLIMIT_*` constants; `RLIMIT_RTTIME` is available on Linux. -/
def rlimit_names : List (String × Nat) :=
  [("as", 9), ("core", 4), ("cpu", 0), ("data", 2), ("fsize", 1),
   ("locks", 10), ("memlock", 8), ("msgqueue", 12), ("nice", 13),
   ("nofile", 7), ("nproc", 6), ("rss", 5), ("rtprio", 14), ("rttime", 15),
   ("sigpending", 11), ("stack", 3)]

/-- `str2rlim` (src/conf.c:605-615): first table entry with this exact
name, else -1. -/
def str2rlim (s : String) : Int :=
  match rlimit_names.lookup s with
  | some v => (v : Int)
  | none => -1

/-- The body of `conf_parse_rlimit` once the three tokens `level`, `limit`
and `val` are fixed (src/conf.c:673-699): resource range check, value
parse (`unlimited`/`infinity` or `strtonum(val, 0, 2 << 31)`), then the
`soft`/`hard`/`both` dispatch; any failure leaves the table unmodified. -/
def conf_parse_rlimit_set (level limit val : String) (arr : Nat → rlimit) :
    Nat → rlimit :=
  if str2rlim limit < 0 ∨ str2rlim limit > (RLIMIT_NLIMITS : Int) then arr
  else
    let resource := (str2rlim limit).toNat
    let cfg? : Option Nat :=
      if val = "unlimited" ∨ val = "infinity" then some RLIM_INFINITY
      else (strtonum val 0 ((2 : Int) ^ 32)).map Int.toNat
    match cfg? with
    | none => arr
    | some cfg =>
      if level = "soft" then
        Function.update arr resource
          { rlim_cur := cfg, rlim_max := (arr resource).rlim_max }
      else if level = "hard" then
        Function.update arr resource
          { rlim_cur := (arr resource).rlim_cur, rlim_max := cfg }
      else if level = "both" then
        Function.update arr resource { rlim_cur := cfg, rlim_max := cfg }
      else arr

/-- `conf_parse_rlimit` (src/conf.c:650-703): tokenise on blanks; with only
two tokens the shorthand form shifts them into `limit`/`val` and uses level
`both`; fewer than two tokens is a parse error (table unmodified). -/
def conf_parse_rlimit (line : String) (arr : Nat → rlimit) : Nat → rlimit :=
  match strtok_all [' ', '\t'] line with
  | [] => arr
  | [_] => arr
  | [level, limit] => conf_parse_rlimit_set "both" level limit arr
  | level :: limit :: val :: _ => conf_parse_rlimit_set level limit val arr

example : strtok_all [' ', '\t'] "soft nofile 1024" = ["soft", "nofile", "1024"] := by
  decide

/-! ## Template instantiation (src/conf.c:917-974) -/

/-- Offset of the first `'%'` in the list, if any: `strchr(pos, '%')`
(src/conf.c:939), as an offset from the start of the scanned suffix. -/
def pct_idx : List Char → Option Nat
  | [] => none
  | c :: rest => if c = '%' then some 0 else (pct_idx rest).map Nat.succ

/-- The replacement loop of `instantiate` (src/conf.c:938-950), one step per
iteration of the C while loop.  `strchr(pos, '%')` finds the first `%` at or
after index `pos`; when the two bytes there are `"%i"` the placeholder is
spliced over with `name` (the memmove and memcpy at conf.c:944-945) and
`pos` advances by `strlen(name)` from its OLD value (conf.c:947), which can
lag the replacement site, so spliced text may be rescanned and re-replaced;
at any other `%` the loop advances `pos` by one byte (conf.c:949).  The
fuel only bounds the iteration count; `instantiate` passes enough for the
loop to run to completion (`instantiate_loop_fuel` below shows the result
is then independent of the exact amount). -/
def instantiate_loop (name : List Char) : Nat → List Char → Nat → List Char
  | 0, line, _ => line
  | fuel + 1, line, pos =>
    match pct_idx (line.drop pos) with
    | none => line
    | some i =>
      if (line.drop pos).get? (i + 1) = some 'i' then
        instantiate_loop name fuel
          (line.take (pos + i) ++ name ++ line.drop (pos + i + 2))
          (pos + name.length)
      else
        instantiate_loop name fuel line (pos + 1)

/-- `instantiate` (src/conf.c:920-953): an empty instance name returns the
line untouched (conf.c:926); otherwise the replacement loop runs from
`pos = line` (the realloc at conf.c:934 only grows the allocation; it is
assumed to succeed).  The function reads only up to the line's NUL
terminator, which the list model makes intrinsic.  Every loop iteration
moves `pos` closer to the end of the string faster than the string can
grow (a splice grows the string by `strlen(name) - 2` but advances `pos`
by `strlen(name)`), so `line.length + 1` units of fuel always exhaust the
loop. -/
def instantiate (line name : List Char) : List Char :=
  if name = [] then line else instantiate_loop name (line.length + 1) line 0

/-- Modelled from the spec: "every occurrence of the two-character
placeholder is replaced with `name`", scanning left to right, a replacement
handled and then skipped, never rescanned. -/
def replace_placeholder (name : List Char) : List Char → List Char
  | [] => []
  | '%' :: 'i' :: rest => name ++ replace_placeholder name rest
  | c :: rest => c :: replace_placeholder name rest

lemma pct_idx_none_no_pct : ∀ (l : List Char), pct_idx l = none →
    ∀ c ∈ l, c ≠ '%' := by
  intro l
  induction l with
  | nil => intro _ c hc; simp at hc
  | cons a rest ih =>
    intro hp c hc
    rw [pct_idx] at hp
    by_cases ha : a = '%'
    · rw [if_pos ha] at hp; exact absurd hp (by simp)
    · rw [if_neg ha] at hp
      rcases List.mem_cons.mp hc with h | h
      · exact h ▸ ha
      · exact ih (by simpa using hp) c h

lemma pct_idx_some_spec : ∀ (l : List Char) (i : Nat), pct_idx l = some i →
    i < l.length ∧ l.get? i = some '%' ∧ ∀ c ∈ l.take i, c ≠ '%' := by
  intro l
  induction l with
  | nil => intro i hp; simp [pct_idx] at hp
  | cons a rest ih =>
    intro i hp
    rw [pct_idx] at hp
    by_cases ha : a = '%'
    · rw [if_pos ha] at hp
      obtain rfl : (0 : Nat) = i := by simpa using hp
      exact ⟨by simp, by simp [ha], by simp⟩
    · rw [if_neg ha] at hp
      obtain ⟨j, hj, rfl⟩ := Option.map_eq_some'.mp hp
      obtain ⟨h1, h2, h3⟩ := ih j hj
      refine ⟨by simpa using h1, by simpa using h2, ?_⟩
      intro c hc
      rcases List.mem_cons.mp (by simpa [List.take_succ_cons] using hc) with h | h
      · exact h ▸ ha
      · exact h3 c h

lemma rp_cons_no_pair (name : List Char) (c : Char) (t : List Char)
    (h : ¬(c = '%' ∧ t.get? 0 = some 'i')) :
    replace_placeholder name (c :: t) = c :: replace_placeholder name t := by
  rw [replace_placeholder.eq_def]
  split
  · rename_i heq
    exact absurd heq (by simp)
  · rename_i rest heq
    injection heq with h1 h2
    subst h1
    subst h2
    exact absurd ⟨rfl, rfl⟩ h
  · rename_i c' rest heq
    injection heq with h1 h2
    subst h1
    subst h2
    rfl

lemma rp_pair (name t : List Char) :
    replace_placeholder name ('%' :: 'i' :: t) = name ++ replace_placeholder name t := rfl

lemma rp_no_pct_append (name : List Char) :
    ∀ (u t : List Char), (∀ c ∈ u, c ≠ '%') →
      replace_placeholder name (u ++ t) = u ++ replace_placeholder name t := by
  intro u
  induction u with
  | nil => intro t _; rfl
  | cons c u ih =>
    intro t hu
    have hc : c ≠ '%' := hu c (List.mem_cons_self c u)
    rw [List.cons_append, rp_cons_no_pair name c (u ++ t) (fun hp => hc hp.1),
      ih t (fun x hx => hu x (List.mem_cons_of_mem c hx))]
    rfl

lemma rp_id_of_no_pct (name l : List Char) (h : ∀ c ∈ l, c ≠ '%') :
    replace_placeholder name l = l := by
  have h2 := rp_no_pct_append name l [] h
  have h0 : replace_placeholder name [] = [] := rfl
  rw [h0] at h2
  simpa using h2

lemma drop_eq_cons_getq : ∀ {α : Type} (l : List α) (n : Nat) (a : α),
    l.get? n = some a → l.drop n = a :: l.drop (n + 1) := by
  intro α l
  induction l with
  | nil => intro n a h; simp at h
  | cons c rest ih =>
    intro n a h
    match n with
    | 0 => obtain rfl : c = a := by simpa using h
           rfl
    | n + 1 => simpa [List.drop_succ_cons] using ih n a (by simpa using h)

/-- With a `%`-free name the lagging `pos` can never land inside spliced
text that rescans into a fresh placeholder, and the loop computes the plain
left-to-right replacement of the suffix it has not yet passed. -/
lemma instantiate_loop_no_pct (name : List Char) (hpn : '%' ∉ name) :
    ∀ (fuel : Nat) (A s : List Char), s.length < fuel →
      instantiate_loop name fuel (A ++ s) A.length
        = A ++ replace_placeholder name s := by
  intro fuel
  induction fuel with
  | zero => intro A s hs; exact absurd hs (Nat.not_lt_zero _)
  | succ fuel ih =>
    intro A s hs
    rw [instantiate_loop, List.drop_left]
    split
    · rename_i hp
      rw [rp_id_of_no_pct name s (pct_idx_none_no_pct s hp)]
    · rename_i i hp
      obtain ⟨hi, hgeti, htake⟩ := pct_idx_some_spec s i hp
      split
      · rename_i hcond
        have hi1 : i + 1 < s.length := (List.get?_eq_some.mp hcond).1
        have hdrop1 : s.drop i = '%' :: s.drop (i + 1) := drop_eq_cons_getq s i '%' hgeti
        have hdrop2 : s.drop (i + 1) = 'i' :: s.drop (i + 2) := drop_eq_cons_getq s (i + 1) 'i' hcond
        have hsdec : s = s.take i ++ '%' :: 'i' :: s.drop (i + 2) := by
          conv_lhs => rw [← List.take_append_drop i s, hdrop1, hdrop2]
        have hchunklen : (s.take i).length = i := by
          rw [List.length_take]; omega
        have htakeline : (A ++ s).take (A.length + i) = A ++ s.take i := by
          rw [List.take_append_eq_append_take, List.take_of_length_le (by omega)]
          congr 2
          omega
        have hdropline : (A ++ s).drop (A.length + i + 2) = s.drop (i + 2) := by
          rw [List.drop_append_eq_append_drop, List.drop_eq_nil_of_le (by omega)]
          rw [List.nil_append]
          congr 1
          omega
        rw [htakeline, hdropline]
        have hsplit : A ++ s.take i ++ name ++ s.drop (i + 2)
            = (A ++ ((s.take i ++ name).take name.length))
              ++ ((s.take i ++ name).drop name.length ++ s.drop (i + 2)) := by
          simp only [List.append_assoc]
          congr 1
          rw [← List.append_assoc ((s.take i ++ name).take name.length)
            ((s.take i ++ name).drop name.length) (s.drop (i + 2)),
            List.take_append_drop]
          simp [List.append_assoc]
        have hlenA : A.length + name.length
            = (A ++ ((s.take i ++ name).take name.length)).length := by
          simp only [List.length_append, List.length_take]
          omega
        rw [hsplit, hlenA]
        have hslen : ((s.take i ++ name).drop name.length ++ s.drop (i + 2)).length < fuel := by
          simp only [List.length_append, List.length_drop, List.length_take]
          omega
        rw [ih _ _ hslen]
        have hfree : ∀ c ∈ (s.take i ++ name).drop name.length, c ≠ '%' := by
          intro c hc
          rcases List.mem_append.mp (List.mem_of_mem_drop hc) with h | h
          · exact htake c h
          · exact fun he => hpn (he ▸ h)
        rw [rp_no_pct_append name _ _ hfree]
        conv_rhs => rw [hsdec, rp_no_pct_append name _ _ htake, rp_pair]
        simp only [List.append_assoc]
        congr 1
        rw [← List.append_assoc ((s.take i ++ name).take name.length)
          ((s.take i ++ name).drop name.length)
          (replace_placeholder name (s.drop (i + 2))),
          List.take_append_drop]
        simp [List.append_assoc]
      · rename_i hcond
        rcases s with _ | ⟨c, t0⟩
        · exact absurd hi (by simp)
        · have hnp : ¬(c = '%' ∧ t0.get? 0 = some 'i') := by
            rcases i with _ | i'
            · exact fun hpair => hcond (by simpa using hpair.2)
            · exact fun hpair => htake c (by simp [List.take_succ_cons]) hpair.1
          have hst : A ++ c :: t0 = (A ++ [c]) ++ t0 := by simp
          have hlen : A.length + 1 = (A ++ [c]).length := by simp
          rw [hst, hlen, ih (A ++ [c]) t0 (by simp at hs ⊢; omega)]
          rw [rp_cons_no_pair name c t0 hnp]
          simp

/-- Any two sufficient amounts of fuel make `instantiate_loop` agree: the
loop has converged, so the `line.length + 1` passed by `instantiate` is a
faithful rendering of the unbounded C loop.  The measure is the distance
from `pos` to the end of the string, which shrinks by two at a splice and
by one otherwise. -/
lemma instantiate_loop_fuel (name : List Char) :
    ∀ (m f g : Nat) (line : List Char) (pos : Nat),
      line.length ≤ pos + m → m < f → m < g →
      instantiate_loop name f line pos = instantiate_loop name g line pos := by
  intro m
  induction m with
  | zero =>
    intro f g line pos hm hf hg
    obtain ⟨f', rfl⟩ := Nat.exists_eq_add_of_lt hf
    obtain ⟨g', rfl⟩ := Nat.exists_eq_add_of_lt hg
    have hnil : line.drop pos = [] := List.drop_eq_nil_of_le (by omega)
    rw [instantiate_loop, instantiate_loop, hnil]
    rfl
  | succ m ih =>
    intro f g line pos hm hf hg
    obtain ⟨f', rfl⟩ := Nat.exists_eq_add_of_lt hf
    obtain ⟨g', rfl⟩ := Nat.exists_eq_add_of_lt hg
    rw [instantiate_loop, instantiate_loop]
    split
    · rfl
    · rename_i i hp
      split
      · rename_i hcond
        have hi1 : i + 1 < (line.drop pos).length := (List.get?_eq_some.mp hcond).1
        have hlen : (line.take (pos + i) ++ name ++ line.drop (pos + i + 2)).length
            ≤ (pos + name.length) + m := by
          simp only [List.length_append, List.length_take, List.length_drop]
          simp only [List.length_drop] at hi1
          omega
        exact ih _ _ _ _ hlen (by omega) (by omega)
      · rename_i hcond
        have hi : i < (line.drop pos).length := (pct_idx_some_spec _ i hp).1
        have hlen : line.length ≤ (pos + 1) + m := by
          simp only [List.length_drop] at hi
          omega
        exact ih _ _ _ _ hlen (by omega) (by omega)

/-- Claim C9 (corrected): `instantiate` on `"tty [2] %i noclear"` with name
`"ttyS0"` yields `"tty [2] ttyS0 noclear"`; a line with two placeholders
has both substituted; and for every line and every non-empty name that
contains no `%` character the result is exactly the left-to-right
replacement of each `"%i"` occurrence by the name (`replace_placeholder`,
written from the spec's words).  The `%`-free proviso is necessary: the
loop advances `pos` by `strlen(name)` from a position that can lag the
splice site (conf.c:947), so a name containing `%` can be rescanned and
re-replaced, see the counterexample.  The scan is a function of the
characters before the line's original NUL terminator only, so it cannot
depend on anything past it. -/
theorem instantiate_replaces :
    (∀ (line name : List Char), name ≠ [] → '%' ∉ name →
        instantiate line name = replace_placeholder name line)
    ∧ instantiate "tty [2] %i noclear".toList "ttyS0".toList
        = "tty [2] ttyS0 noclear".toList
    ∧ instantiate "a %i b %i".toList "ttyS0".toList
        = "a ttyS0 b ttyS0".toList := by
  refine ⟨?_, by decide, by decide⟩
  intro line name hname hpn
  rw [instantiate, if_neg hname]
  have := instantiate_loop_no_pct name hpn (line.length + 1) [] line (by omega)
  simpa using this

/-- Claim C9's witness: the universal part of `instantiate_replaces` applied
to the line `"x %i"` and name `"y"`. -/
theorem instantiate_replaces_witness :
    instantiate "x %i".toList "y".toList
      = replace_placeholder "y".toList "x %i".toList :=
  instantiate_replaces.1 "x %i".toList "y".toList (by decide) (by decide)

/-- Claim C9's counterexample: with the name `"c%i"` the splice on the line
`"ab%i"` leaves `pos` (advanced by `strlen(name)` from the start of the
line, conf.c:947) pointing into the middle of the spliced text, so the
`"%i"` the name carried is found again and re-replaced: the code yields
`"abcc%i"`, not the uniform left-to-right replacement `"abc%i"`, refuting
"every occurrence of the placeholder in the line is replaced by the name"
read as the line's occurrences and nothing else. -/
theorem instantiate_rescan_cex :
    instantiate "ab%i".toList "c%i".toList = "abcc%i".toList
    ∧ replace_placeholder "c%i".toList "ab%i".toList = "abc%i".toList
    ∧ instantiate "ab%i".toList "c%i".toList
        ≠ replace_placeholder "c%i".toList "ab%i".toList := by
  exact ⟨by decide, by decide, by decide⟩

/-! ## Environment overlay (src/conf.c:56-60, 341-358, 388-450) -/

/-- The process environment: an association list, first entry of a name
wins on lookup. -/
abbrev Env := List (String × String)

/-- Replace the first entry of name `k`, else append; the body of
`setenv(3)` with overwrite. -/
def setenv_entry : Env → String → String → Env
  | [], k, v => [(k, v)]
  | p :: rest, k, v => if p.1 = k then (k, v) :: rest else p :: setenv_entry rest k v

/-- Modelled from `setenv(3)`: an empty name is rejected (EINVAL), the
environment unchanged; otherwise overwrite-or-append. -/
def setenvv (env : Env) (k v : String) : Env :=
  if k = "" then env else setenv_entry env k v

/-- Modelled from `unsetenv(3)`: an empty name is rejected (EINVAL);
otherwise every entry of that name is removed. -/
def unsetenvv (env : Env) (k : String) : Env :=
  if k = "" then env else env.filter (fun p => p.1 != k)

/-- Modelled from `getenv(3)`: first entry of that name. -/
def getenvv (env : Env) (k : String) : Option String :=
  (env.find? (fun p => p.1 == k)).map (fun p => p.2)

/-- Modelled from paths.h (glibc): `_PATH_STDPATH`, the PATH default. -/
def PATH_STDPATH : String := "/usr/bin:/bin:/usr/sbin:/sbin"

/-- Modelled from paths.h (glibc): `_PATH_BSHELL`, the SHELL default. -/
def PATH_BSHELL : String := "/bin/sh"

/-- Strip trailing whitespace, as the backwards NUL-writing loops of
`parse_env` (src/conf.c:403-408 and 434-439) do. -/
def trimTrailingWS (cs : List Char) : List Char :=
  (cs.reverse.dropWhile isspacec).reverse

/-- `strchr(key, '=')` split: text before the first `'='` and after it. -/
def splitFirstEq : List Char → Option (List Char × List Char)
  | [] => none
  | c :: rest =>
    if c = '=' then some ([], rest)
    else (splitFirstEq rest).map (fun p => (c :: p.1, p.2))

/-- `parse_env` (src/conf.c:388-450): trim the line, split at the first
`'='`, trim the value's leading whitespace, strip one layer of matching
quotes (the closing quote being the line's last character), trim the key's
trailing whitespace, export the variable and push the key onto the tracked
list (`TAILQ_INSERT_HEAD`). -/
def parse_env (line : String) (env : Env) (tracked : List String) :
    Env × List String :=
  match splitFirstEq (trimTrailingWS (line.toList.dropWhile isspacec)) with
  | none => (env, tracked)
  | some (k0, v0) =>
    let v1 := v0.dropWhile isspacec
    let v : List Char :=
      match v1 with
      | [] => v1
      | q :: _ =>
        if (q = '"' ∨ q = '\'') ∧ v1.getLast? = some q then
          (v1.drop 1).dropLast
        else v1
    let key := List.asString (trimTrailingWS k0)
    (setenvv env key (List.asString v), key :: tracked)

/-- `conf_reset_env` (src/conf.c:341-358): unset every tracked variable,
empty the tracked list, then re-export the four fixed defaults. -/
def conf_reset_env (env : Env) (tracked : List String) : Env × List String :=
  let env1 := tracked.foldl unsetenvv env
  (setenvv (setenvv (setenvv (setenvv env1 "PATH" PATH_STDPATH)
      "SHELL" PATH_BSHELL) "LOGNAME" "root") "USER" "root", [])

/-- No entry of the environment has an empty name; true of any real
process environment and preserved by every operation here. -/
def env_wf (env : Env) : Prop := ∀ p ∈ env, p.1 ≠ ""

lemma getenvv_cons (p : String × String) (rest : Env) (k : String) :
    getenvv (p :: rest) k = if p.1 == k then some p.2 else getenvv rest k := by
  rw [getenvv, List.find?_cons]
  cases hb : p.1 == k <;> simp [getenvv]

lemma getenvv_setenv_entry_same (env : Env) (k v : String) :
    getenvv (setenv_entry env k v) k = some v := by
  induction env with
  | nil => simp [setenv_entry, getenvv_cons]
  | cons p rest ih =>
    rw [setenv_entry]
    by_cases hp : p.1 = k
    · rw [if_pos hp, getenvv_cons]
      simp
    · rw [if_neg hp, getenvv_cons, if_neg (by simpa using hp)]
      exact ih

lemma getenvv_setenv_entry_other (env : Env) (k v j : String) (hj : j ≠ k) :
    getenvv (setenv_entry env k v) j = getenvv env j := by
  induction env with
  | nil =>
    rw [setenv_entry, getenvv_cons, if_neg (by simpa using fun h => hj h.symm)]
  | cons p rest ih =>
    rw [setenv_entry]
    by_cases hp : p.1 = k
    · rw [if_pos hp, getenvv_cons, if_neg (by simpa using fun h => hj h.symm),
        getenvv_cons, if_neg (by rw [hp]; simpa using fun h => hj h.symm)]
    · rw [if_neg hp, getenvv_cons, getenvv_cons]
      cases hb : p.1 == j
      · rw [if_neg (by simp), if_neg (by simp)]
        exact ih
      · rw [if_pos rfl, if_pos rfl]

lemma getenvv_setenvv_same (env : Env) (k v : String) (hk : k ≠ "") :
    getenvv (setenvv env k v) k = some v := by
  rw [setenvv, if_neg hk]
  exact getenvv_setenv_entry_same env k v

lemma getenvv_setenvv_other (env : Env) (k v j : String) (hj : j ≠ k) :
    getenvv (setenvv env k v) j = getenvv env j := by
  rw [setenvv]
  by_cases hk : k = ""
  · rw [if_pos hk]
  · rw [if_neg hk]
    exact getenvv_setenv_entry_other env k v j hj

lemma getenvv_filter_ne_self (env : Env) (k : String) :
    getenvv (env.filter (fun p => p.1 != k)) k = none := by
  induction env with
  | nil => rfl
  | cons p rest ih =>
    rw [List.filter_cons]
    cases hb : p.1 != k
    · rw [if_neg (by simp [hb])]
      exact ih
    · rw [if_pos (by simp [hb]), getenvv_cons,
        if_neg (by simpa using hb)]
      exact ih

lemma getenvv_unsetenvv_self (env : Env) (k : String) (hk : k ≠ "") :
    getenvv (unsetenvv env k) k = none := by
  rw [unsetenvv, if_neg hk]
  exact getenvv_filter_ne_self env k

lemma getenvv_none_filter (env : Env) (k j : String)
    (h : getenvv env k = none) :
    getenvv (env.filter (fun p => p.1 != j)) k = none := by
  induction env with
  | nil => rfl
  | cons p rest ih =>
    rw [getenvv_cons] at h
    have hb : (p.1 == k) = false := by
      by_contra hbc
      rw [if_pos (by simpa using hbc)] at h
      simp at h
    rw [if_neg (by simp [hb])] at h
    rw [List.filter_cons]
    cases hc : p.1 != j
    · rw [if_neg (by simp [hc])]
      exact ih h
    · rw [if_pos (by simp [hc]), getenvv_cons, if_neg (by simp [hb])]
      exact ih h

lemma getenvv_none_unsetenvv (env : Env) (k j : String)
    (h : getenvv env k = none) : getenvv (unsetenvv env j) k = none := by
  rw [unsetenvv]
  by_cases hjj : j = ""
  · rw [if_pos hjj]; exact h
  · rw [if_neg hjj]
    exact getenvv_none_filter env k j h

lemma getenvv_none_foldl_unsetenvv (tr : List String) (env : Env) (k : String)
    (h : getenvv env k = none) :
    getenvv (tr.foldl unsetenvv env) k = none := by
  induction tr generalizing env with
  | nil => exact h
  | cons j rest ih =>
    rw [List.foldl]
    exact ih _ (getenvv_none_unsetenvv env k j h)

lemma getenvv_foldl_unsetenvv_mem (tr : List String) (env : Env) (k : String)
    (hk : k ≠ "") (hmem : k ∈ tr) :
    getenvv (tr.foldl unsetenvv env) k = none := by
  induction tr generalizing env with
  | nil => cases hmem
  | cons j rest ih =>
    rw [List.foldl]
    rcases List.mem_cons.mp hmem with hkj | hmem2
    · subst hkj
      exact getenvv_none_foldl_unsetenvv rest _ k
        (getenvv_unsetenvv_self env k hk)
    · exact ih _ hmem2

lemma getenvv_empty_of_wf (env : Env) (hwf : env_wf env) :
    getenvv env "" = none := by
  induction env with
  | nil => rfl
  | cons p rest ih =>
    rw [getenvv_cons,
      if_neg (by simpa using hwf p (List.mem_cons_self _ _))]
    exact ih fun q hq => hwf q (List.mem_cons_of_mem _ hq)

lemma env_wf_setenv_entry (env : Env) (k v : String) (hk : k ≠ "")
    (hwf : env_wf env) : env_wf (setenv_entry env k v) := by
  induction env with
  | nil =>
    intro p hp
    rw [setenv_entry, List.mem_singleton] at hp
    rw [hp]
    exact hk
  | cons q rest ih =>
    rw [setenv_entry]
    by_cases hq : q.1 = k
    · rw [if_pos hq]
      intro p hp
      rcases List.mem_cons.mp hp with h | h
      · rw [h]; exact hk
      · exact hwf p (List.mem_cons_of_mem _ h)
    · rw [if_neg hq]
      intro p hp
      rcases List.mem_cons.mp hp with h | h
      · rw [h]; exact hwf q (List.mem_cons_self _ _)
      · exact ih (fun r hr => hwf r (List.mem_cons_of_mem _ hr)) p h

lemma env_wf_setenvv (env : Env) (k v : String) (hwf : env_wf env) :
    env_wf (setenvv env k v) := by
  rw [setenvv]
  by_cases hk : k = ""
  · rw [if_pos hk]; exact hwf
  · rw [if_neg hk]; exact env_wf_setenv_entry env k v hk hwf

lemma env_wf_unsetenvv (env : Env) (k : String) (hwf : env_wf env) :
    env_wf (unsetenvv env k) := by
  rw [unsetenvv]
  by_cases hk : k = ""
  · rw [if_pos hk]; exact hwf
  · rw [if_neg hk]
    exact fun p hp => hwf p (List.mem_of_mem_filter hp)

lemma env_wf_foldl_unsetenvv (tr : List String) (env : Env)
    (hwf : env_wf env) : env_wf (tr.foldl unsetenvv env) := by
  induction tr generalizing env with
  | nil => exact hwf
  | cons j rest ih => exact ih _ (env_wf_unsetenvv env j hwf)

lemma env_wf_parse_env (line : String) (env : Env) (tracked : List String)
    (hwf : env_wf env) : env_wf (parse_env line env tracked).1 := by
  rw [parse_env]
  cases h : splitFirstEq (trimTrailingWS (line.toList.dropWhile isspacec)) with
  | none => exact hwf
  | some p => exact env_wf_setenvv _ _ _ hwf


/-- All the tracked `set KEY=VALUE` operations of one parse pass, applied
in sequence to an initial environment state. -/
def env_after_ops (lines : List String) (env0 : Env) (tr0 : List String) :
    Env × List String :=
  lines.foldl (fun s l => parse_env l s.1 s.2) (env0, tr0)

lemma env_wf_after_ops (lines : List String) (env0 : Env) (tr0 : List String)
    (hwf : env_wf env0) : env_wf (env_after_ops lines env0 tr0).1 := by
  induction lines generalizing env0 tr0 with
  | nil => exact hwf
  | cons l rest ih =>
    rw [env_after_ops, List.foldl]
    exact ih _ _ (env_wf_parse_env l env0 tr0 hwf)

/-- Claim C7: after `conf_reset_env`, the tracked set is empty, every
previously tracked key other than the four always-reasserted variables is
unset, and PATH, SHELL, LOGNAME, USER are present with their fixed
defaults.  This holds for any well-formed starting environment and any
sequence of tracked `set` operations. -/
theorem conf_reset_env_resets (lines : List String) (env0 : Env)
    (tr0 : List String) (hwf : env_wf env0) :
    (conf_reset_env (env_after_ops lines env0 tr0).1
        (env_after_ops lines env0 tr0).2).2 = []
    ∧ (∀ k ∈ (env_after_ops lines env0 tr0).2,
        k ∉ (["PATH", "SHELL", "LOGNAME", "USER"] : List String) →
        getenvv (conf_reset_env (env_after_ops lines env0 tr0).1
            (env_after_ops lines env0 tr0).2).1 k = none)
    ∧ getenvv (conf_reset_env (env_after_ops lines env0 tr0).1
        (env_after_ops lines env0 tr0).2).1 "PATH" = some PATH_STDPATH
    ∧ getenvv (conf_reset_env (env_after_ops lines env0 tr0).1
        (env_after_ops lines env0 tr0).2).1 "SHELL" = some PATH_BSHELL
    ∧ getenvv (conf_reset_env (env_after_ops lines env0 tr0).1
        (env_after_ops lines env0 tr0).2).1 "LOGNAME" = some "root"
    ∧ getenvv (conf_reset_env (env_after_ops lines env0 tr0).1
        (env_after_ops lines env0 tr0).2).1 "USER" = some "root" := by
  have hwf1 : env_wf (env_after_ops lines env0 tr0).1 :=
    env_wf_after_ops lines env0 tr0 hwf
  refine ⟨rfl, ?_, ?_, ?_, ?_, ?_⟩
  · intro k hk hk4
    simp only [List.mem_cons, List.not_mem_nil, or_false, not_or] at hk4
    obtain ⟨hP, hS, hL, hU⟩ := hk4
    rw [conf_reset_env]
    by_cases hke : k = ""
    · subst hke
      apply getenvv_empty_of_wf
      show env_wf (setenvv (setenvv (setenvv (setenvv
        (List.foldl unsetenvv (env_after_ops lines env0 tr0).1
          (env_after_ops lines env0 tr0).2) "PATH" PATH_STDPATH)
        "SHELL" PATH_BSHELL) "LOGNAME" "root") "USER" "root")
      apply env_wf_setenvv
      apply env_wf_setenvv
      apply env_wf_setenvv
      apply env_wf_setenvv
      exact env_wf_foldl_unsetenvv _ _ hwf1
    · rw [getenvv_setenvv_other _ _ _ _ hU, getenvv_setenvv_other _ _ _ _ hL,
        getenvv_setenvv_other _ _ _ _ hS, getenvv_setenvv_other _ _ _ _ hP]
      exact getenvv_foldl_unsetenvv_mem _ _ k hke hk
  · rw [conf_reset_env]
    rw [getenvv_setenvv_other _ _ _ _ (by decide),
      getenvv_setenvv_other _ _ _ _ (by decide),
      getenvv_setenvv_other _ _ _ _ (by decide)]
    exact getenvv_setenvv_same _ _ _ (by decide)
  · rw [conf_reset_env]
    rw [getenvv_setenvv_other _ _ _ _ (by decide),
      getenvv_setenvv_other _ _ _ _ (by decide)]
    exact getenvv_setenvv_same _ _ _ (by decide)
  · rw [conf_reset_env]
    rw [getenvv_setenvv_other _ _ _ _ (by decide)]
    exact getenvv_setenvv_same _ _ _ (by decide)
  · rw [conf_reset_env]
    exact getenvv_setenvv_same _ _ _ (by decide)

/-- Claim C7's witness: `conf_reset_env_resets` at the single operation
`set FOO=bar` on an empty initial environment. -/
theorem conf_reset_env_resets_witness :
    (conf_reset_env (env_after_ops ["FOO=bar"] [] []).1
        (env_after_ops ["FOO=bar"] [] []).2).2 = []
    ∧ (∀ k ∈ (env_after_ops ["FOO=bar"] [] []).2,
        k ∉ (["PATH", "SHELL", "LOGNAME", "USER"] : List String) →
        getenvv (conf_reset_env (env_after_ops ["FOO=bar"] [] []).1
            (env_after_ops ["FOO=bar"] [] []).2).1 k = none)
    ∧ getenvv (conf_reset_env (env_after_ops ["FOO=bar"] [] []).1
        (env_after_ops ["FOO=bar"] [] []).2).1 "PATH" = some PATH_STDPATH
    ∧ getenvv (conf_reset_env (env_after_ops ["FOO=bar"] [] []).1
        (env_after_ops ["FOO=bar"] [] []).2).1 "SHELL" = some PATH_BSHELL
    ∧ getenvv (conf_reset_env (env_after_ops ["FOO=bar"] [] []).1
        (env_after_ops ["FOO=bar"] [] []).2).1 "LOGNAME" = some "root"
    ∧ getenvv (conf_reset_env (env_after_ops ["FOO=bar"] [] []).1
        (env_after_ops ["FOO=bar"] [] []).2).1 "USER" = some "root" :=
  conf_reset_env_resets ["FOO=bar"] [] [] (by intro p hp; cases hp)

/-! ## Change-tracking set (src/conf.c:70-79, 1190-1287) -/

/-- What `realpath(3)` returns for a path: the canonical path, failure
with `errno = ENOENT` (the path no longer exists), or failure with any
other errno. -/
inductive RPRes where
  | ok (rp : String)
  | enoent
  | fail
deriving Repr, DecidableEq

/-- Modelled from libite (not under src/): `paste(buf, len, dir, name)`
joins a directory and a file name with exactly one `/` separator. -/
def paste (dir name : String) : String :=
  if dir.toList.getLast? = some '/' then dir ++ name else dir ++ "/" ++ name

/-- `conf_find` (src/conf.c:1190-1200): the first recorded change whose
path compares equal to `file`. -/
def conf_find (cs : List String) (file : String) : Option String :=
  cs.find? (fun n => string_compare n file)

/-- The record-or-dedup tail of `conf_change_act` (src/conf.c:1240-1256):
an already-tracked path is a no-op, otherwise the path is inserted at the
head of the change list (`TAILQ_INSERT_HEAD`). -/
def conf_change_record (path : String) (cs : List String) :
    Option (List String) :=
  match conf_find cs path with
  | some _ => some cs
  | none => some (path :: cs)

/-- `conf_change_act` (src/conf.c:1221-1260): build `dir/name`,
canonicalize it — a vanished path (ENOENT) keeps the literal path, any
other `realpath` failure is the `fail` exit (`none`, return 1) — then
record or dedup.  The event `mask` is only logged, never inspected. -/
def conf_change_act (rp : String → RPRes) (dir name : String) (mask : Nat)
    (cs : List String) : Option (List String) :=
  match rp (paste dir name) with
  | .fail => none
  | .enoent => conf_change_record (paste dir name) cs
  | .ok r => conf_change_record r cs

/-- `conf_any_change` (src/conf.c:1262-1268): is the change list non-empty. -/
def conf_any_change (cs : List String) : Bool := !cs.isEmpty

/-- `conf_changed` (src/conf.c:1270-1287): false for a null path, false
when `realpath` fails for any reason, else a `conf_find` lookup of the
canonical path. -/
def conf_changed (rp : String → RPRes) (file : Option String)
    (cs : List String) : Bool :=
  match file with
  | none => false
  | some f =>
    match rp f with
    | .ok r => (conf_find cs r).isSome
    | .enoent => false
    | .fail => false

/-- Claim C1, counterexample to the claim as stated: a creation event for
`/etc/finit.d/foo.conf` (mask `IN_CREATE`) followed by a deletion event for
the same path (mask `IN_DELETE`, realpath now failing with ENOENT) leaves
one record in the Change-Tracking Set — the deletion is deduplicated as an
already-registered path, not removed — and `conf_any_change` is true, where
the claim requires the set empty and `any_changed()` false. -/
theorem conf_change_roundtrip_cex :
    conf_change_act (fun _ => RPRes.enoent) "/etc/finit.d" "foo.conf" 0x200
        ((conf_change_act (fun _ => RPRes.ok "/etc/finit.d/foo.conf")
          "/etc/finit.d" "foo.conf" 0x100 []).getD [])
      = some ["/etc/finit.d/foo.conf"]
    ∧ conf_any_change ["/etc/finit.d/foo.conf"] = true := by
  constructor
  · decide
  · rfl

/-- Claim C1, corrected statement: for any path whose canonicalization at
creation time is the literal `dir/name` and which has vanished by the time
the deletion event is handled, recording creation then deletion leaves the
Change-Tracking Set holding exactly the one record inserted by the creation
event (`conf_change_act` never removes records; the mask is ignored and the
deletion event dedups against the existing record), and `conf_any_change`
returns true. -/
theorem conf_change_roundtrip (dir name : String) (rp1 rp2 : String → RPRes)
    (h1 : rp1 (paste dir name) = RPRes.ok (paste dir name))
    (h2 : rp2 (paste dir name) = RPRes.enoent) :
    conf_change_act rp1 dir name 0x100 [] = some [paste dir name]
    ∧ conf_change_act rp2 dir name 0x200 [paste dir name]
        = some [paste dir name]
    ∧ conf_any_change [paste dir name] = true := by
  have hself : string_compare (paste dir name) (paste dir name) = true := by
    simp [string_compare]
  refine ⟨?_, ?_, rfl⟩
  · rw [conf_change_act, h1]
    rfl
  · rw [conf_change_act, h2]
    show conf_change_record (paste dir name) [paste dir name]
      = some [paste dir name]
    rw [conf_change_record, conf_find]
    simp only [List.find?_cons, hself]

/-- Claim C1's witness: `conf_change_roundtrip` at the concrete directory
`/etc/finit.d` and file `foo.conf`. -/
theorem conf_change_roundtrip_witness :
    conf_change_act (fun _ => RPRes.ok "/etc/finit.d/foo.conf")
        "/etc/finit.d" "foo.conf" 0x100 []
      = some [paste "/etc/finit.d" "foo.conf"]
    ∧ conf_change_act (fun _ => RPRes.enoent) "/etc/finit.d" "foo.conf" 0x200
        [paste "/etc/finit.d" "foo.conf"]
      = some [paste "/etc/finit.d" "foo.conf"]
    ∧ conf_any_change [paste "/etc/finit.d" "foo.conf"] = true :=
  conf_change_roundtrip "/etc/finit.d" "foo.conf" _ _ rfl rfl

/-- Claim C10: `conf_changed` is false for a null path and false whenever
canonicalization fails (ENOENT — the deleted-file case — or any other
error), even when the Change-Tracking Set holds a record under that exact
literal path; such records are still reported by `conf_any_change`. -/
theorem conf_changed_canon_fail (rp : String → RPRes) (f : String)
    (cs : List String) :
    conf_changed rp none cs = false
    ∧ (rp f = RPRes.enoent → conf_changed rp (some f) cs = false)
    ∧ (rp f = RPRes.fail → conf_changed rp (some f) cs = false)
    ∧ (f ∈ cs → conf_any_change cs = true) := by
  refine ⟨rfl, ?_, ?_, ?_⟩
  · intro h
    rw [conf_changed, h]
  · intro h
    rw [conf_changed, h]
  · intro h
    cases cs with
    | nil => cases h
    | cons a rest => rfl

/-- Claim C10's witness: `conf_changed_canon_fail` at a literal path that
is in the set but no longer canonicalizes: `conf_changed` says false while
`conf_any_change` says true. -/
theorem conf_changed_canon_fail_witness :
    conf_changed (fun _ => RPRes.enoent) (some "/etc/finit.d/foo.conf")
        ["/etc/finit.d/foo.conf"] = false
    ∧ conf_any_change ["/etc/finit.d/foo.conf"] = true :=
  ⟨(conf_changed_canon_fail (fun _ => RPRes.enoent) "/etc/finit.d/foo.conf"
      ["/etc/finit.d/foo.conf"]).2.1 rfl,
    (conf_changed_canon_fail (fun _ => RPRes.enoent) "/etc/finit.d/foo.conf"
      ["/etc/finit.d/foo.conf"]).2.2.2 (List.mem_singleton.mpr rfl)⟩

/-- Claim C6: `"soft nofile 1024"` updates only the soft bound of the
open-files entry to 1024 and leaves everything else as it was; the
shorthand `"nofile unlimited"` sets both bounds of that entry to
`RLIM_INFINITY` and leaves every other entry unchanged. -/
theorem conf_parse_rlimit_nofile (arr : Nat → rlimit) :
    (conf_parse_rlimit "soft nofile 1024" arr RLIMIT_NOFILE
        = { rlim_cur := 1024, rlim_max := (arr RLIMIT_NOFILE).rlim_max }
      ∧ ∀ r, r ≠ RLIMIT_NOFILE → conf_parse_rlimit "soft nofile 1024" arr r = arr r)
    ∧ (conf_parse_rlimit "nofile unlimited" arr RLIMIT_NOFILE
        = { rlim_cur := RLIM_INFINITY, rlim_max := RLIM_INFINITY }
      ∧ ∀ r, r ≠ RLIMIT_NOFILE → conf_parse_rlimit "nofile unlimited" arr r = arr r) := by
  have h1 : conf_parse_rlimit "soft nofile 1024" arr
      = Function.update arr 7 { rlim_cur := 1024, rlim_max := (arr 7).rlim_max } := rfl
  have h2 : conf_parse_rlimit "nofile unlimited" arr
      = Function.update arr 7 { rlim_cur := RLIM_INFINITY, rlim_max := RLIM_INFINITY } := rfl
  refine ⟨⟨?_, ?_⟩, ?_, ?_⟩
  · rw [h1]; exact Function.update_same _ _ _
  · intro r hr
    rw [h1]; exact Function.update_noteq hr _ _
  · rw [h2]; exact Function.update_same _ _ _
  · intro r hr
    rw [h2]; exact Function.update_noteq hr _ _

/-! ## Parser state, line dispatcher and reload orchestrator
(src/conf.c:728-1188, src/helpers.c:67-82, 276-306, src/util.c:276-303) -/

/-- Modelled from config.h (not under src/): the system-default unit-file
layer `/lib/finit/system` referenced as `FINIT_SYSPATH`. -/
def FINIT_SYSPATH : String := "/lib/finit/system"

/-- Modelled from finit.h (not under src/): the rescue-mode conf file. -/
def RESCUE_CONF : String := "/lib/finit/rescue.conf"

/-- Modelled from config.h (not under src/): the built-in default runlevel. -/
def RUNLEVEL : Int := 2

/-- Modelled from the spec (helpers.h is not under src/): `MATCH_CMD` is a
case-insensitive keyword prefix match (`strncasecmp`); on a match, `x` is
the rest of the line after the keyword. -/
def match_cmd (line cmd : String) : Option String :=
  if (line.toList.take cmd.toList.length).map Char.toLower
      = cmd.toList.map Char.toLower then
    some (List.asString (line.toList.drop cmd.toList.length))
  else none

/-- `strip_line` (src/helpers.c:67-82): trim leading blanks, cut the line
at the first `#`. -/
def strip_line (line : String) : String :=
  List.asString ((line.toList.dropWhile isblankc).takeWhile (fun c => c != '#'))

/-- Modelled from the spec ("tabs treated as spaces"; `tabstospaces` is
declared in a header not under src/). -/
def tabstospaces (line : String) : String :=
  List.asString (line.toList.map (fun c => if c = '\t' then ' ' else c))

/-- `strtobytes` (src/util.c:276-303): a digit prefix, an optional
`G`/`M`/`k` scale suffix (any other non-digit is an error, -1), decimal
value times 1000 per scale step. -/
def strtobytes (arg : Option String) : Int :=
  match arg with
  | none => -1
  | some a =>
    match a.toList.drop (a.toList.takeWhile Char.isDigit).length with
    | [] => Int.ofNat (natOfDigits (a.toList.takeWhile Char.isDigit))
    | c :: _ =>
      if c = 'G' then Int.ofNat (natOfDigits (a.toList.takeWhile Char.isDigit) * 1000 ^ 3)
      else if c = 'M' then Int.ofNat (natOfDigits (a.toList.takeWhile Char.isDigit) * 1000 ^ 2)
      else if c = 'k' then Int.ofNat (natOfDigits (a.toList.takeWhile Char.isDigit) * 1000)
      else -1

/-- The kinds of dynamic unit `parse_dynamic` registers. -/
inductive SvcType where
  | service
  | task
  | run
  | sysv
  | tty
deriving Repr, DecidableEq

/-- One `service_register` call as the external registry sees it: unit
kind, spec line, resource-limit table, origin file, and the cgroup context
in force at registration time. -/
structure RegEvent where
  svc_type : SvcType
  spec : String
  rlim : Nat → rlimit
  file : Option String
  cgroup : String

/-- What `lstat(2)` reports for a path, as far as conf_reload looks. -/
inductive FileKind where
  | reg
  | dir
  | symlink
deriving Repr, DecidableEq

/-- External calls the core makes, recorded as a trace. -/
inductive ExtCall where
  | tzset
  | cgroup_mark_all
  | svc_mark_dynamic
  | setrlimit_call (res : Nat) (lim : rlimit)
  | run_interactive (cmd : String)
  | service_init
  | service_update_rdeps
  | service_mark_unavail
  | cgroup_config
  | cgroup_cleanup
  | set_hostname_call
  | sethostname_call (name : String)
  | print_rc (rc : Nat)
deriving Repr, DecidableEq

/-- The world outside the core: readable files (as fparseln-delivered line
lists), `fexist`, `/proc/modules`, `glob(3)`, `lstat(2)`, `realpath(3)`,
`/etc/hostname`, and the boot flags and primary config path. -/
structure World where
  fs : String → Option (List String)
  fexists : String → Bool
  kmod_loaded : String → Bool
  globf : String → List String
  lstatf : String → Option FileKind
  rpath : String → RPRes
  etc_hostname : Option String
  rescue : Bool
  single : Bool
  finit_conf : String

/-- The mutable globals of src/conf.c (and the ones it shares with
src/helpers.c), plus the registration/cgroup/call traces. -/
structure ConfState where
  env : Env
  env_list : List String
  cgroup_current : String
  initial_rlimit : Nat → rlimit
  global_rlimit : Nat → rlimit
  hostname : Option String
  network : Option String
  finit_rcsd : String
  runparts : Option String
  sdown : Option String
  logfile_size_max : Int
  logfile_count_max : Int
  log_static_size : Int
  log_static_count : Int
  syncsec : Int
  service_interval : Int
  cfglevel : Int
  runlevel : Int
  registered : List RegEvent
  cgroup_adds : List (String × String × Bool)
  conf_changes : List String
  calls : List ExtCall

/-- Modelled from the spec (service.c is not under src/): the external
registry records the unit with the spec line, the limit table, the origin
file and the implicit cgroup context in force. -/
def service_register (t : SvcType) (spec : String) (arr : Nat → rlimit)
    (file : Option String) (st : ConfState) : ConfState :=
  { st with registered := st.registered ++
      [{ svc_type := t
         spec := spec
         rlim := arr
         file := file
         cgroup := st.cgroup_current }] }

/-- Modelled from the spec (cgroup.c is not under src/): `cgroup_add`
records the named group and its configuration string. -/
def cgroup_add (name config : String) (top : Bool) (st : ConfState) :
    ConfState :=
  { st with cgroup_adds := st.cgroup_adds ++ [(name, config, top)] }

/-- Position of the first occurrence of `pat` in a list (`strstr`). -/
def findSubstrPos (pat : List Char) : List Char → Option Nat
  | [] => if pat = [] then some 0 else none
  | l@(_ :: rest) =>
    if pat.isPrefixOf l then some 0
    else (findSubstrPos pat rest).map (· + 1)

/-- Split at the first occurrence of a character (`strchr`). -/
def splitAtFirst (c : Char) : List Char → Option (List Char × List Char)
  | [] => none
  | x :: rest =>
    if x = c then some ([], rest)
    else (splitAtFirst c rest).map (fun p => (x :: p.1, p.2))

/-- `conf_parse_cgroup` (src/conf.c:706-726): first token is the name
(rejected silently if it contains `..` or `/`), the remaining tokens are
re-joined comma-separated. -/
def conf_parse_cgroup (line : String) (st : ConfState) : ConfState :=
  match strtok_all [' ', '\t'] line with
  | [] => st
  | name :: rest =>
    if (findSubstrPos "..".toList name.toList).isSome || name.toList.contains '/' then st
    else cgroup_add name (String.intercalate "," rest) false st

/-- `kmod_load` (src/conf.c:473-493): bootstrap only; the module name is
the first token (after `strlcpy` into a 64-byte buffer); an already-loaded
module is skipped, otherwise `modprobe` runs with the full argument
string. -/
def kmod_load (w : World) (mod : String) (st : ConfState) : ConfState :=
  if st.runlevel ≠ (INIT_LEVEL : Int) then st
  else
    match strtok_all [' ', '\t'] (List.asString (mod.toList.take 63)) with
    | [] => st
    | m :: _ =>
      if w.kmod_loaded m then st
      else { st with calls := st.calls ++ [.run_interactive ("modprobe " ++ mod)] }

/-- The `log` token walk (src/conf.c:793-801): `size`/`count` prefixes
consume the following token as their value; `strtok(NULL)` at the end of
the tokens is NULL (`strtobytes none = -1`). -/
def log_walk : List String → Int → Int → Int × Int
  | [], size, count => (size, count)
  | [tok], size, count =>
    if tok.toList.take 4 = "size".toList then (strtobytes none, count)
    else if tok.toList.take 5 = "count".toList then (size, strtobytes none)
    else (size, count)
  | tok :: nxt :: rest, size, count =>
    if tok.toList.take 4 = "size".toList then
      log_walk rest (strtobytes (some nxt)) count
    else if tok.toList.take 5 = "count".toList then
      log_walk rest size (strtobytes (some nxt))
    else
      log_walk (nxt :: rest) size count

/-- Write the `log` walk's `size`/`count` statics back and apply the
non-negative ones to the live limits (src/conf.c:803-806). -/
def conf_log_apply (p : Int × Int) (st : ConfState) : ConfState :=
  { st with
    log_static_size := p.1
    log_static_count := p.2
    logfile_size_max := (if p.1 ≥ 0 then p.1 else st.logfile_size_max)
    logfile_count_max := (if p.2 ≥ 0 then p.2 else st.logfile_count_max) }

/-- The `runlevel` directive's sanity clamp (src/conf.c:826-830):
outside 1-9 or equal to 6 falls back to 2. -/
def conf_runlevel_sanity (lvl : Int) : Int :=
  if lvl < 1 ∨ lvl > 9 ∨ lvl = 6 then 2 else lvl

/-- `parse_static` (src/conf.c:728-860): the bootstrap-only and general
static directives, tried in source order.  `pc` is `parse_conf` (for
`include`), already applied to the world and remaining fuel.  Returns the
C return value and the updated state. -/
def parse_static (pc : String → Bool → ConfState → Nat × ConfState)
    (w : World) (is_rcsd : Bool) (line : String) (st : ConfState) :
    Nat × ConfState :=
  match (if st.runlevel = (INIT_LEVEL : Int) then match_cmd line "host " else none) with
  | some x => (0, { st with hostname := some (strip_line x) })
  | none =>
  match (if st.runlevel = (INIT_LEVEL : Int) then match_cmd line "hostname " else none) with
  | some x => (0, { st with hostname := some (strip_line x) })
  | none =>
  match (if st.runlevel = (INIT_LEVEL : Int) then match_cmd line "mknod " else none) with
  | some x =>
    (0, { st with calls := st.calls ++ [.run_interactive ("mknod " ++ strip_line x)] })
  | none =>
  match (if st.runlevel = (INIT_LEVEL : Int) then match_cmd line "module " else none) with
  | some x => (0, kmod_load w (strip_line x) st)
  | none =>
  match (if st.runlevel = (INIT_LEVEL : Int) then match_cmd line "network " else none) with
  | some x => (0, { st with network := some (strip_line x) })
  | none =>
  match (if st.runlevel = (INIT_LEVEL : Int) then match_cmd line "rcsd " else none) with
  | some x => (0, { st with finit_rcsd := strip_line x })
  | none =>
  match (if st.runlevel = (INIT_LEVEL : Int) then match_cmd line "runparts " else none) with
  | some x => (0, { st with runparts := some (strip_line x) })
  | none =>
  match (if st.runlevel = (INIT_LEVEL : Int) then match_cmd line "set " else none) with
  | some x =>
    (0, { st with
      env := (parse_env x st.env st.env_list).1
      env_list := (parse_env x st.env st.env_list).2 })
  | none =>
  match match_cmd line "include " with
  | some x =>
    if w.fexists (strip_line x) = false then (1, st)
    else pc (strip_line x) is_rcsd st
  | none =>
  match match_cmd line "log " with
  | some x =>
    (0, conf_log_apply (log_walk (strtok_all [':', '=', ' '] x)
        st.log_static_size st.log_static_count) st)
  | none =>
  match match_cmd line "shutdown " with
  | some x => (0, { st with sdown := some (strip_line x) })
  | none =>
  match (if st.runlevel = (INIT_LEVEL : Int) then match_cmd line "runlevel " else none) with
  | some x =>
    (0, { st with cfglevel :=
      conf_runlevel_sanity ((strtonum (strip_line x) 1 9).getD RUNLEVEL) })
  | none =>
  match match_cmd line "reboot-delay " with
  | some x => (0, { st with syncsec := (strtonum (strip_line x) 0 60).getD 0 })
  | none =>
  match match_cmd line "service-interval " with
  | some x =>
    match strtonum (strip_line x) 0 1440 with
    | some val =>
      (0, if st.service_interval = 0 then
        { st with
          service_interval := val * 1000
          calls := st.calls ++ [ExtCall.service_init] }
      else { st with service_interval := val * 1000 })
    | none => (0, st)
  | none => (1, st)

/-- `parse_dynamic` (src/conf.c:862-915): unit-producing directives,
`rlimit`, `cgroup`, the `cgroup.<name>` context switch (a 16-byte
`strlcpy` keeps at most 15 characters), and `tty`, in source order.
Returns the C return value, the state and the possibly updated
resource-limit table. -/
def parse_dynamic (line : String) (arr : Nat → rlimit) (file : Option String)
    (st : ConfState) : Nat × ConfState × (Nat → rlimit) :=
  match match_cmd line "service " with
  | some x => (0, service_register .service x arr file st, arr)
  | none =>
  match match_cmd line "task " with
  | some x => (0, service_register .task x arr file st, arr)
  | none =>
  match match_cmd line "run " with
  | some x => (0, service_register .run x arr file st, arr)
  | none =>
  match match_cmd line "sysv " with
  | some x => (0, service_register .sysv x arr file st, arr)
  | none =>
  match match_cmd line "rlimit " with
  | some x => (0, st, conf_parse_rlimit x arr)
  | none =>
  match match_cmd line "cgroup " with
  | some x => (0, conf_parse_cgroup x st, arr)
  | none =>
  match match_cmd line "cgroup." with
  | some x => (0, { st with cgroup_current := List.asString (x.toList.take 15) }, arr)
  | none =>
  match match_cmd line "tty " with
  | some x => (0, service_register .tty (strip_line x) arr file st, arr)
  | none => (1, st, arr)

/-- One line of `parse_conf`'s loop (src/conf.c:1013-1018): statics first,
then dynamics (with the per-file table when rcsd-scoped, the global table
otherwise), else an environment assignment. -/
def parse_line_dyn (w : World) (file : String) (is_rcsd : Bool)
    (line : String) (st1 : ConfState) (lrl : Nat → rlimit) :
    ConfState × (Nat → rlimit) :=
  match parse_dynamic line (if is_rcsd then lrl else st1.global_rlimit)
      (some file) st1 with
  | (0, st2, arr2) =>
    if is_rcsd then (st2, arr2) else ({ st2 with global_rlimit := arr2 }, lrl)
  | (_, st2, _) =>
    ({ st2 with
      env := (parse_env line st2.env st2.env_list).1
      env_list := (parse_env line st2.env st2.env_list).2 }, lrl)

def parse_line (pc : String → Bool → ConfState → Nat × ConfState)
    (w : World) (file : String) (is_rcsd : Bool) (line : String)
    (st : ConfState) (lrl : Nat → rlimit) : ConfState × (Nat → rlimit) :=
  match parse_static pc w is_rcsd line st with
  | (0, st1) => (st1, lrl)
  | (_, st1) => parse_line_dyn w file is_rcsd line st1 lrl

/-- The line loop of `parse_conf` (src/conf.c:1001-1021): tabs to spaces,
template instantiation, then the dispatcher. -/
def parse_conf_lines (pc : String → Bool → ConfState → Nat × ConfState)
    (w : World) (file : String) (is_rcsd : Bool) (name : String) :
    List String → ConfState → (Nat → rlimit) → ConfState × (Nat → rlimit)
  | [], st, lrl => (st, lrl)
  | l :: rest, st, lrl =>
    parse_conf_lines pc w file is_rcsd name rest
      (parse_line pc w file is_rcsd
        (List.asString (instantiate (tabstospaces l).toList name.toList)) st lrl).1
      (parse_line pc w file is_rcsd
        (List.asString (instantiate (tabstospaces l).toList name.toList)) st lrl).2

/-- `is_template` (src/conf.c:955-974): `none` when the file name has no
`@`; `some ""` for the template definition itself or an invalid name (no
`.conf` after the `@`), which the caller skips; otherwise the instance
name, the text between `@` and the first `.conf`, capped at 64 bytes. -/
def is_template (file : String) : Option String :=
  match splitAtFirst '@' file.toList with
  | none => none
  | some (_, nm) =>
    if nm = ".conf".toList then some ""
    else
      match findSubstrPos ".conf".toList nm with
      | none => some ""
      | some i => some (List.asString (nm.take (min i 64)))

/-- `parse_conf` (src/conf.c:976-1026), with fuel bounding the `include`
recursion depth (the C recurses unboundedly on an include cycle; fuel 0 is
the out-of-resources failure, return 1).  Template check first, then
`fopen`; an rcsd-scoped file starts from a fresh copy of the global limits
and an empty cgroup context. -/
def parse_conf : Nat → World → String → Bool → ConfState → Nat × ConfState
  | 0, _, _, _, st => (1, st)
  | fuel + 1, w, file, is_rcsd, st =>
    if is_template file = some "" then (0, st)
    else
      match w.fs file with
      | none => (1, st)
      | some lines =>
        if is_rcsd then
          (0, (parse_conf_lines (parse_conf fuel w) w file is_rcsd
            ((is_template file).getD "") lines
            { st with cgroup_current := "" } st.global_rlimit).1)
        else
          (0, (parse_conf_lines (parse_conf fuel w) w file is_rcsd
            ((is_template file).getD "") lines st st.global_rlimit).1)

/-- POSIX `basename(3)` on the glob results: the last `/`-separated
component (all paths here end in `.conf`, so the trailing-slash corner
cases of basename cannot arise). -/
def basename (p : String) : String :=
  List.asString ((p.toList.reverse.takeWhile (fun c => c != '/')).reverse)

/-- Did `realpath(3)` succeed. -/
def rpath_ok : RPRes → Bool
  | .ok _ => true
  | _ => false

/-- The per-entry loop of `conf_reload` (src/conf.c:1109-1158): drop a
`FINIT_SYSPATH` entry whose basename reappears later in the list; skip
inaccessible paths, directories and dangling symlinks; skip names not
ending in `.conf`; parse the rest rcsd-scoped. -/
def conf_reload_scan (fuel : Nat) (w : World) :
    List String → ConfState → ConfState
  | [], st => st
  | path :: rest, st =>
    if FINIT_SYSPATH.toList.isPrefixOf path.toList
        && rest.any (fun q => basename q == basename path) then
      conf_reload_scan fuel w rest st
    else
      match w.lstatf path with
      | none => conf_reload_scan fuel w rest st
      | some .dir => conf_reload_scan fuel w rest st
      | some k =>
        if k = FileKind.symlink ∧ rpath_ok (w.rpath path) = false then
          conf_reload_scan fuel w rest st
        else if path.toList.length < 6 ∨ ¬(".conf".toList.isSuffixOf path.toList = true) then
          conf_reload_scan fuel w rest st
        else
          conf_reload_scan fuel w rest (parse_conf fuel w path true st).2

/-- `set_hostname` (src/helpers.c:276-306): in rescue mode the file is not
consulted; otherwise a readable `/etc/hostname` replaces the hostname; a
non-null hostname is pushed to the kernel.  The call itself is recorded
first. -/
def set_hostname (w : World) (st : ConfState) : ConfState :=
  match (if w.rescue then st.hostname
      else match w.etc_hostname with
        | some h => some h
        | none => st.hostname) with
  | some h =>
    { st with
      hostname := some h
      calls := st.calls ++ [ExtCall.set_hostname_call, ExtCall.sethostname_call h] }
  | none => { st with calls := st.calls ++ [.set_hostname_call] }

/-- `drop_changes` (src/conf.c:1213-1219): discard every change record. -/
def drop_changes (st : ConfState) : ConfState :=
  { st with conf_changes := [] }

/-- The single-user override (src/conf.c:1178-1179). -/
def conf_reload_single (w : World) (st : ConfState) : ConfState :=
  if st.runlevel = (INIT_LEVEL : Int) ∧ w.single then { st with cfglevel := 1 }
  else st

/-- The `done:` tail of `conf_reload` (src/conf.c:1170-1187): cgroup
cleanup, drop the change records, single-user override, hostname
resolution, return 0. -/
def conf_reload_done (w : World) (st : ConfState) : Nat × ConfState :=
  (0, set_hostname w (conf_reload_single w
    (drop_changes { st with calls := st.calls ++ [ExtCall.cgroup_cleanup] })))

/-- The reset head of `conf_reload` (src/conf.c:1060-1073): tzset, mark
cgroups and dynamic units stale, reset the environment overlay, restore
the global limits from the initial ones. -/
def conf_reload_reset (st : ConfState) : ConfState :=
  { st with
    calls := st.calls ++ [ExtCall.tzset, ExtCall.cgroup_mark_all,
      ExtCall.svc_mark_dynamic]
    env := (conf_reset_env st.env st.env_list).1
    env_list := (conf_reset_env st.env st.env_list).2
    global_rlimit := st.initial_rlimit }

/-- The rescue special case (src/conf.c:1075-1086): parse the rescue conf;
if that fails register the fallback console tty; report. -/
def conf_reload_print (rc : Nat) (st : ConfState) : ConfState :=
  { st with calls := st.calls ++ [ExtCall.print_rc rc] }

/-- The rescue special case, continued: the fallback console registration
when the rescue conf could not be parsed (src/conf.c:1080-1082). -/
def conf_reload_rescue_fallback (rc : Nat) (st : ConfState) : ConfState :=
  if rc ≠ 0 then
    service_register .tty "tty [12345789] rescue" st.global_rlimit none st
  else st

/-- The rescue special case (src/conf.c:1075-1086) assembled: parse the
rescue conf, register the fallback on failure, report. -/
def conf_reload_rescue (fuel : Nat) (w : World) (st : ConfState) : ConfState :=
  conf_reload_print (parse_conf fuel w RESCUE_CONF false st).1
    (conf_reload_rescue_fallback (parse_conf fuel w RESCUE_CONF false st).1
      (parse_conf fuel w RESCUE_CONF false st).2)

/-- Applying the parsed global limits to the live process
(src/conf.c:1091-1096): one best-effort setrlimit per resource. -/
def conf_reload_setrlimits (st : ConfState) : ConfState :=
  { st with calls := st.calls ++ (List.range RLIMIT_NLIMITS).map (fun i => ExtCall.setrlimit_call i (st.global_rlimit i)) }

/-- The three ordered glob patterns (src/conf.c:1105-1107): the rcsd
directory first, then FINIT_SYSPATH, then the enabled/ subdirectory. -/
def conf_reload_glob (w : World) (st : ConfState) : List String :=
  w.globf (st.finit_rcsd ++ "/*.conf") ++ w.globf (FINIT_SYSPATH ++ "/*.conf")
    ++ w.globf (st.finit_rcsd ++ "/enabled/*.conf")

/-- The reconciliation calls after the layered parse
(src/conf.c:1162-1169). -/
def conf_reload_recon (st : ConfState) : ConfState :=
  { st with calls := st.calls ++ [ExtCall.service_update_rdeps, ExtCall.service_mark_unavail, ExtCall.cgroup_config] }

/-- `conf_reload` (src/conf.c:1055-1188): reset, then either the rescue
special case or primary parse → setrlimit → layered resolution and parse →
reconciliation, and in every case the `done:` tail.  Always returns 0. -/
def conf_reload (fuel : Nat) (w : World) (st : ConfState) : Nat × ConfState :=
  if w.rescue then
    conf_reload_done w (conf_reload_rescue fuel w (conf_reload_reset st))
  else
    conf_reload_done w
      (conf_reload_recon
        (conf_reload_scan fuel w
          (conf_reload_glob w
            (conf_reload_setrlimits
              ((parse_conf fuel w w.finit_conf false (conf_reload_reset st)).2)))
          (conf_reload_setrlimits
            ((parse_conf fuel w w.finit_conf false (conf_reload_reset st)).2))))

lemma parse_conf_no_file (fuel : Nat) (w : World) (file : String)
    (is_rcsd : Bool) (st : ConfState) (h : w.fs file = none) :
    (parse_conf fuel w file is_rcsd st).2 = st := by
  cases fuel with
  | zero => rfl
  | succ fuel =>
    rw [parse_conf]
    by_cases ht : is_template file = some ""
    · rw [if_pos ht]
    · rw [if_neg ht, h]

lemma set_hostname_conf_changes (w : World) (st : ConfState) :
    (set_hostname w st).conf_changes = st.conf_changes := by
  unfold set_hostname
  split <;> rfl

lemma set_hostname_registered (w : World) (st : ConfState) :
    (set_hostname w st).registered = st.registered := by
  unfold set_hostname
  split <;> rfl

lemma set_hostname_calls_mem (w : World) (st : ConfState) (c : ExtCall)
    (h : c ∈ st.calls ∨ c = ExtCall.set_hostname_call) :
    c ∈ (set_hostname w st).calls := by
  unfold set_hostname
  split <;> simp [List.mem_append] <;> tauto

lemma conf_reload_single_conf_changes (w : World) (st : ConfState) :
    (conf_reload_single w st).conf_changes = st.conf_changes := by
  unfold conf_reload_single
  split <;> rfl

lemma conf_reload_single_registered (w : World) (st : ConfState) :
    (conf_reload_single w st).registered = st.registered := by
  unfold conf_reload_single
  split <;> rfl

lemma conf_reload_single_calls (w : World) (st : ConfState) :
    (conf_reload_single w st).calls = st.calls := by
  unfold conf_reload_single
  split <;> rfl

lemma conf_reload_done_fst (w : World) (st : ConfState) :
    (conf_reload_done w st).1 = 0 := rfl

lemma conf_reload_done_conf_changes (w : World) (st : ConfState) :
    (conf_reload_done w st).2.conf_changes = [] := by
  rw [conf_reload_done]
  show (set_hostname w _).conf_changes = []
  rw [set_hostname_conf_changes, conf_reload_single_conf_changes]
  rfl

lemma conf_reload_done_registered (w : World) (st : ConfState) :
    (conf_reload_done w st).2.registered = st.registered := by
  rw [conf_reload_done]
  show (set_hostname w _).registered = st.registered
  rw [set_hostname_registered, conf_reload_single_registered]
  rfl

lemma conf_reload_done_calls_mem (w : World) (st : ConfState) (c : ExtCall)
    (h : c ∈ st.calls ∨ c = ExtCall.cgroup_cleanup
      ∨ c = ExtCall.set_hostname_call) :
    c ∈ (conf_reload_done w st).2.calls := by
  rw [conf_reload_done]
  show c ∈ (set_hostname w _).calls
  apply set_hostname_calls_mem
  rcases h with h | h | h
  · left
    rw [conf_reload_single_calls]
    show c ∈ st.calls ++ [ExtCall.cgroup_cleanup]
    exact List.mem_append_left _ h
  · left
    rw [conf_reload_single_calls]
    show c ∈ st.calls ++ [ExtCall.cgroup_cleanup]
    rw [h]
    exact List.mem_append_right _ (List.mem_singleton.mpr rfl)
  · right
    exact h

/-- Claim C3: a reload pass that is not in rescue mode, whose primary
configuration file cannot be opened and whose layered directories glob to
nothing still returns 0 and runs every reconciliation step: the mark/sweep
and reconciliation calls all appear in the trace, the Change-Tracking Set
is cleared, the hostname is resolved, and no unit is registered. -/
theorem conf_reload_degraded (fuel : Nat) (w : World) (st : ConfState)
    (hrescue : w.rescue = false)
    (hconf : w.fs w.finit_conf = none)
    (hglob : ∀ pat, w.globf pat = [])
    (hreg : st.registered = []) :
    (conf_reload fuel w st).1 = 0
    ∧ (conf_reload fuel w st).2.conf_changes = []
    ∧ (conf_reload fuel w st).2.registered = []
    ∧ ExtCall.cgroup_mark_all ∈ (conf_reload fuel w st).2.calls
    ∧ ExtCall.svc_mark_dynamic ∈ (conf_reload fuel w st).2.calls
    ∧ ExtCall.service_update_rdeps ∈ (conf_reload fuel w st).2.calls
    ∧ ExtCall.service_mark_unavail ∈ (conf_reload fuel w st).2.calls
    ∧ ExtCall.cgroup_config ∈ (conf_reload fuel w st).2.calls
    ∧ ExtCall.cgroup_cleanup ∈ (conf_reload fuel w st).2.calls
    ∧ ExtCall.set_hostname_call ∈ (conf_reload fuel w st).2.calls := by
  have hpr : (parse_conf fuel w w.finit_conf false (conf_reload_reset st)).2
      = conf_reload_reset st := parse_conf_no_file _ _ _ _ _ hconf
  have hgl : conf_reload_glob w
      (conf_reload_setrlimits (conf_reload_reset st)) = [] := by
    rw [conf_reload_glob, hglob, hglob, hglob]
    rfl
  have hre : conf_reload fuel w st = conf_reload_done w
      (conf_reload_recon (conf_reload_setrlimits (conf_reload_reset st))) := by
    rw [conf_reload, if_neg (by rw [hrescue]; exact Bool.false_ne_true), hpr,
      hgl, conf_reload_scan]
  rw [hre]
  have hcallsmem : ∀ c : ExtCall,
      c ∈ (conf_reload_reset st).calls →
      c ∈ (conf_reload_recon (conf_reload_setrlimits (conf_reload_reset st))).calls := by
    intro c hc
    show c ∈ ((conf_reload_reset st).calls ++ _) ++ _
    exact List.mem_append_left _ (List.mem_append_left _ hc)
  refine ⟨conf_reload_done_fst _ _, conf_reload_done_conf_changes _ _, ?_,
    ?_, ?_, ?_, ?_, ?_, ?_, ?_⟩
  · rw [conf_reload_done_registered]
    show (conf_reload_reset st).registered = []
    show st.registered = []
    exact hreg
  · exact conf_reload_done_calls_mem _ _ _ (Or.inl (hcallsmem _
      (by show _ ∈ st.calls ++ _; simp)))
  · exact conf_reload_done_calls_mem _ _ _ (Or.inl (hcallsmem _
      (by show _ ∈ st.calls ++ _; simp)))
  · exact conf_reload_done_calls_mem _ _ _ (Or.inl (by
      show _ ∈ _ ++ [ExtCall.service_update_rdeps, ExtCall.service_mark_unavail, ExtCall.cgroup_config]
      simp))
  · exact conf_reload_done_calls_mem _ _ _ (Or.inl (by
      show _ ∈ _ ++ [ExtCall.service_update_rdeps, ExtCall.service_mark_unavail, ExtCall.cgroup_config]
      simp))
  · exact conf_reload_done_calls_mem _ _ _ (Or.inl (by
      show _ ∈ _ ++ [ExtCall.service_update_rdeps, ExtCall.service_mark_unavail, ExtCall.cgroup_config]
      simp))
  · exact conf_reload_done_calls_mem _ _ _ (Or.inr (Or.inl rfl))
  · exact conf_reload_done_calls_mem _ _ _ (Or.inr (Or.inr rfl))

/-- A default, quiescent parser state: empty environment and traces, the
stock limits and log settings, runlevel 2 (after bootstrap), default rcsd
directory. -/
def initConfState : ConfState :=
  { env := [], env_list := [], cgroup_current := "",
    initial_rlimit := fun _ => { rlim_cur := 0, rlim_max := 0 },
    global_rlimit := fun _ => { rlim_cur := 0, rlim_max := 0 },
    hostname := none, network := none, finit_rcsd := "/etc/finit.d",
    runparts := none, sdown := none, logfile_size_max := 200000,
    logfile_count_max := 5, log_static_size := 200000, log_static_count := 5,
    syncsec := 0, service_interval := 0, cfglevel := 2, runlevel := 2,
    registered := [], cgroup_adds := [], conf_changes := [], calls := [] }

/-- A world in which everything is unreadable and empty, not in rescue
mode; the degraded-reload scenario of claim C3. -/
def wEmpty : World :=
  { fs := fun _ => none, fexists := fun _ => false,
    kmod_loaded := fun _ => false, globf := fun _ => [],
    lstatf := fun _ => none, rpath := fun _ => RPRes.enoent,
    etc_hostname := none, rescue := false, single := false,
    finit_conf := "/etc/finit.conf" }

/-- Claim C3's witness: `conf_reload_degraded` at the concrete empty
world and quiescent state. -/
theorem conf_reload_degraded_witness :
    (conf_reload 1 wEmpty initConfState).1 = 0
    ∧ (conf_reload 1 wEmpty initConfState).2.conf_changes = []
    ∧ (conf_reload 1 wEmpty initConfState).2.registered = []
    ∧ ExtCall.cgroup_mark_all ∈ (conf_reload 1 wEmpty initConfState).2.calls
    ∧ ExtCall.svc_mark_dynamic ∈ (conf_reload 1 wEmpty initConfState).2.calls
    ∧ ExtCall.service_update_rdeps ∈ (conf_reload 1 wEmpty initConfState).2.calls
    ∧ ExtCall.service_mark_unavail ∈ (conf_reload 1 wEmpty initConfState).2.calls
    ∧ ExtCall.cgroup_config ∈ (conf_reload 1 wEmpty initConfState).2.calls
    ∧ ExtCall.cgroup_cleanup ∈ (conf_reload 1 wEmpty initConfState).2.calls
    ∧ ExtCall.set_hostname_call ∈ (conf_reload 1 wEmpty initConfState).2.calls :=
  conf_reload_degraded 1 wEmpty initConfState rfl rfl (fun _ => rfl) rfl

/-- The layered-override scenario of claim C2: `foo.conf` exists both in
the admin-override layer `/etc/finit.d` and in the system-default layer
`/lib/finit/system`, with different content; both are plain files; the
primary config is unreadable and nothing else exists. -/
def wC2 : World :=
  { fs := fun f =>
      if f = "/etc/finit.d/foo.conf" then some ["task rcsd-version"]
      else if f = "/lib/finit/system/foo.conf" then some ["task default-version"]
      else none,
    fexists := fun _ => false, kmod_loaded := fun _ => false,
    globf := fun pat =>
      if pat = "/etc/finit.d/*.conf" then ["/etc/finit.d/foo.conf"]
      else if pat = "/lib/finit/system/*.conf" then ["/lib/finit/system/foo.conf"]
      else [],
    lstatf := fun p =>
      if p = "/etc/finit.d/foo.conf" then some FileKind.reg
      else if p = "/lib/finit/system/foo.conf" then some FileKind.reg
      else none,
    rpath := fun _ => RPRes.enoent, etc_hostname := none,
    rescue := false, single := false, finit_conf := "/etc/finit.conf" }

/-- Claim C2, the code evaluated at the failing input: with
`/etc/finit.d/foo.conf` and `/lib/finit/system/foo.conf` both present,
`conf_reload` parses BOTH files and registers both units — the
default-layer entry is not discarded, because the rcsd layer is globbed
before `FINIT_SYSPATH` and the override check only drops a `FINIT_SYSPATH`
entry whose basename appears later in the combined list.  The
default-layer content is even parsed second, so its directives win. -/
theorem conf_reload_override_bug :
    ((conf_reload 2 wC2 initConfState).2.registered.map
        (fun e => (e.svc_type, e.spec, e.file)))
      = [(SvcType.task, "rcsd-version", some "/etc/finit.d/foo.conf"),
         (SvcType.task, "default-version", some "/lib/finit/system/foo.conf")] := by
  decide

/-! ## The cgroup context of dynamic units (claim C8) -/

lemma toList_append (a b : String) : (a ++ b).toList = a.toList ++ b.toList := by
  simp [String.toList]

lemma match_cmd_append_none (pre t cmd : String)
    (h : (pre.toList.take (min pre.toList.length cmd.toList.length)).map Char.toLower
      ≠ (cmd.toList.take (min pre.toList.length cmd.toList.length)).map Char.toLower) :
    match_cmd (pre ++ t) cmd = none := by
  rw [match_cmd, if_neg]
  intro heq
  apply h
  have h2 := congrArg (List.take (min pre.toList.length cmd.toList.length)) heq
  rw [← List.map_take, ← List.map_take, List.take_take, toList_append,
    List.take_append_eq_append_take] at h2
  have hmin1 : min (min pre.toList.length cmd.toList.length) cmd.toList.length
      = min pre.toList.length cmd.toList.length := by omega
  have hz1 : min pre.toList.length cmd.toList.length - pre.toList.length = 0 := by
    omega
  rw [hmin1, hz1] at h2
  simpa using h2

lemma match_cmd_append_self (cmd t : String) :
    match_cmd (cmd ++ t) cmd = some t := by
  rw [match_cmd, if_pos]
  · congr 1
    rw [toList_append, List.drop_append_eq_append_drop]
    rw [List.drop_length, Nat.sub_self, List.drop_zero, List.nil_append]
    exact String.asString_toList t
  · rw [toList_append, List.take_append_eq_append_take]
    simp

lemma parse_static_no_match (pc : String → Bool → ConfState → Nat × ConfState)
    (w : World) (is_rcsd : Bool) (line : String) (st : ConfState)
    (h01 : match_cmd line "host " = none)
    (h02 : match_cmd line "hostname " = none)
    (h03 : match_cmd line "mknod " = none)
    (h04 : match_cmd line "module " = none)
    (h05 : match_cmd line "network " = none)
    (h06 : match_cmd line "rcsd " = none)
    (h07 : match_cmd line "runparts " = none)
    (h08 : match_cmd line "set " = none)
    (h09 : match_cmd line "include " = none)
    (h10 : match_cmd line "log " = none)
    (h11 : match_cmd line "shutdown " = none)
    (h12 : match_cmd line "runlevel " = none)
    (h13 : match_cmd line "reboot-delay " = none)
    (h14 : match_cmd line "service-interval " = none) :
    parse_static pc w is_rcsd line st = (1, st) := by
  simp only [parse_static, h01, h02, h03, h04, h05, h06, h07, h08, h09, h10,
    h11, h12, h13, h14, ite_self]

lemma parse_static_cgroup_line (pc : String → Bool → ConfState → Nat × ConfState)
    (w : World) (is_rcsd : Bool) (t : String) (st : ConfState) :
    parse_static pc w is_rcsd ("cgroup." ++ t) st = (1, st) :=
  parse_static_no_match pc w is_rcsd _ st
    (match_cmd_append_none _ t _ (by decide)) (match_cmd_append_none _ t _ (by decide))
    (match_cmd_append_none _ t _ (by decide)) (match_cmd_append_none _ t _ (by decide))
    (match_cmd_append_none _ t _ (by decide)) (match_cmd_append_none _ t _ (by decide))
    (match_cmd_append_none _ t _ (by decide)) (match_cmd_append_none _ t _ (by decide))
    (match_cmd_append_none _ t _ (by decide)) (match_cmd_append_none _ t _ (by decide))
    (match_cmd_append_none _ t _ (by decide)) (match_cmd_append_none _ t _ (by decide))
    (match_cmd_append_none _ t _ (by decide)) (match_cmd_append_none _ t _ (by decide))

lemma parse_dynamic_cgroup_line (t : String) (arr : Nat → rlimit)
    (file : Option String) (st : ConfState) :
    parse_dynamic ("cgroup." ++ t) arr file st
      = (0, { st with cgroup_current := List.asString (t.toList.take 15) }, arr) := by
  have hs1 : match_cmd ("cgroup." ++ t) "service " = none :=
    match_cmd_append_none _ t _ (by decide)
  have hs2 : match_cmd ("cgroup." ++ t) "task " = none :=
    match_cmd_append_none _ t _ (by decide)
  have hs3 : match_cmd ("cgroup." ++ t) "run " = none :=
    match_cmd_append_none _ t _ (by decide)
  have hs4 : match_cmd ("cgroup." ++ t) "sysv " = none :=
    match_cmd_append_none _ t _ (by decide)
  have hs5 : match_cmd ("cgroup." ++ t) "rlimit " = none :=
    match_cmd_append_none _ t _ (by decide)
  have hs6 : match_cmd ("cgroup." ++ t) "cgroup " = none :=
    match_cmd_append_none _ t _ (by decide)
  have hs7 : match_cmd ("cgroup." ++ t) "cgroup." = some t :=
    match_cmd_append_self _ t
  simp only [parse_dynamic, hs1, hs2, hs3, hs4, hs5, hs6, hs7]

lemma parse_line_cgroup_switch (pc : String → Bool → ConfState → Nat × ConfState)
    (w : World) (file : String) (is_rcsd : Bool) (st : ConfState)
    (lrl : Nat → rlimit) (t : String) :
    parse_line pc w file is_rcsd ("cgroup." ++ t) st lrl
      = ({ st with cgroup_current := List.asString (t.toList.take 15) }, lrl) := by
  cases is_rcsd <;>
    simp only [parse_line, parse_static_cgroup_line, parse_line_dyn,
      parse_dynamic_cgroup_line] <;>
    rfl

lemma kmod_load_cgroup_current (w : World) (mod : String) (st : ConfState) :
    (kmod_load w mod st).cgroup_current = st.cgroup_current := by
  unfold kmod_load
  repeat' split
  all_goals rfl

lemma conf_parse_cgroup_cgroup_current (line : String) (st : ConfState) :
    (conf_parse_cgroup line st).cgroup_current = st.cgroup_current := by
  unfold conf_parse_cgroup cgroup_add
  repeat' split
  all_goals rfl

lemma parse_static_cgroup_current (pc : String → Bool → ConfState → Nat × ConfState)
    (w : World) (is_rcsd : Bool) (line : String) (st : ConfState)
    (hinc : match_cmd line "include " = none) :
    (parse_static pc w is_rcsd line st).2.cgroup_current = st.cgroup_current := by
  unfold parse_static
  rw [hinc]
  repeat' split
  all_goals first
    | rfl
    | exact kmod_load_cgroup_current _ _ _
    | (exfalso; simp_all)

lemma parse_dynamic_cgroup_current (line : String) (arr : Nat → rlimit)
    (file : Option String) (st : ConfState)
    (hcg : match_cmd line "cgroup." = none) :
    (parse_dynamic line arr file st).2.1.cgroup_current = st.cgroup_current := by
  unfold parse_dynamic
  rw [hcg]
  repeat' split
  all_goals first
    | rfl
    | exact conf_parse_cgroup_cgroup_current _ _
    | (exfalso; simp_all)

lemma parse_line_dyn_cgroup_current (w : World) (file : String)
    (is_rcsd : Bool) (line : String) (st1 : ConfState) (lrl : Nat → rlimit)
    (hcg : match_cmd line "cgroup." = none) :
    (parse_line_dyn w file is_rcsd line st1 lrl).1.cgroup_current
      = st1.cgroup_current := by
  rw [parse_line_dyn]
  rcases hpd : parse_dynamic line (if is_rcsd then lrl else st1.global_rlimit)
      (some file) st1 with ⟨rc2, st2, arr2⟩
  have h2 : st2.cgroup_current = st1.cgroup_current := by
    have h := parse_dynamic_cgroup_current line
      (if is_rcsd then lrl else st1.global_rlimit) (some file) st1 hcg
    rw [hpd] at h
    exact h
  cases rc2 with
  | zero =>
    cases is_rcsd
    · exact h2
    · exact h2
  | succ m => exact h2

lemma parse_line_cgroup_current (pc : String → Bool → ConfState → Nat × ConfState)
    (w : World) (file : String) (is_rcsd : Bool) (line : String)
    (st : ConfState) (lrl : Nat → rlimit)
    (hcg : match_cmd line "cgroup." = none)
    (hinc : match_cmd line "include " = none) :
    (parse_line pc w file is_rcsd line st lrl).1.cgroup_current
      = st.cgroup_current := by
  rw [parse_line]
  rcases hps : parse_static pc w is_rcsd line st with ⟨rc, st1⟩
  have h1 : st1.cgroup_current = st.cgroup_current := by
    have h := parse_static_cgroup_current pc w is_rcsd line st hinc
    rw [hps] at h
    exact h
  cases rc with
  | zero => exact h1
  | succ n =>
    exact (parse_line_dyn_cgroup_current w file is_rcsd line st1 lrl hcg).trans h1


lemma parse_static_service_line (pc : String → Bool → ConfState → Nat × ConfState)
    (w : World) (is_rcsd : Bool) (t : String) (st : ConfState) :
    parse_static pc w is_rcsd ("service " ++ t) st = (1, st) :=
  parse_static_no_match pc w is_rcsd _ st
    (match_cmd_append_none _ t _ (by decide)) (match_cmd_append_none _ t _ (by decide))
    (match_cmd_append_none _ t _ (by decide)) (match_cmd_append_none _ t _ (by decide))
    (match_cmd_append_none _ t _ (by decide)) (match_cmd_append_none _ t _ (by decide))
    (match_cmd_append_none _ t _ (by decide)) (match_cmd_append_none _ t _ (by decide))
    (match_cmd_append_none _ t _ (by decide)) (match_cmd_append_none _ t _ (by decide))
    (match_cmd_append_none _ t _ (by decide)) (match_cmd_append_none _ t _ (by decide))
    (match_cmd_append_none _ t _ (by decide)) (match_cmd_append_none _ t _ (by decide))

lemma parse_static_task_line (pc : String → Bool → ConfState → Nat × ConfState)
    (w : World) (is_rcsd : Bool) (t : String) (st : ConfState) :
    parse_static pc w is_rcsd ("task " ++ t) st = (1, st) :=
  parse_static_no_match pc w is_rcsd _ st
    (match_cmd_append_none _ t _ (by decide)) (match_cmd_append_none _ t _ (by decide))
    (match_cmd_append_none _ t _ (by decide)) (match_cmd_append_none _ t _ (by decide))
    (match_cmd_append_none _ t _ (by decide)) (match_cmd_append_none _ t _ (by decide))
    (match_cmd_append_none _ t _ (by decide)) (match_cmd_append_none _ t _ (by decide))
    (match_cmd_append_none _ t _ (by decide)) (match_cmd_append_none _ t _ (by decide))
    (match_cmd_append_none _ t _ (by decide)) (match_cmd_append_none _ t _ (by decide))
    (match_cmd_append_none _ t _ (by decide)) (match_cmd_append_none _ t _ (by decide))

lemma parse_static_run_line (pc : String → Bool → ConfState → Nat × ConfState)
    (w : World) (is_rcsd : Bool) (t : String) (st : ConfState) :
    parse_static pc w is_rcsd ("run " ++ t) st = (1, st) :=
  parse_static_no_match pc w is_rcsd _ st
    (match_cmd_append_none _ t _ (by decide)) (match_cmd_append_none _ t _ (by decide))
    (match_cmd_append_none _ t _ (by decide)) (match_cmd_append_none _ t _ (by decide))
    (match_cmd_append_none _ t _ (by decide)) (match_cmd_append_none _ t _ (by decide))
    (match_cmd_append_none _ t _ (by decide)) (match_cmd_append_none _ t _ (by decide))
    (match_cmd_append_none _ t _ (by decide)) (match_cmd_append_none _ t _ (by decide))
    (match_cmd_append_none _ t _ (by decide)) (match_cmd_append_none _ t _ (by decide))
    (match_cmd_append_none _ t _ (by decide)) (match_cmd_append_none _ t _ (by decide))

lemma parse_static_sysv_line (pc : String → Bool → ConfState → Nat × ConfState)
    (w : World) (is_rcsd : Bool) (t : String) (st : ConfState) :
    parse_static pc w is_rcsd ("sysv " ++ t) st = (1, st) :=
  parse_static_no_match pc w is_rcsd _ st
    (match_cmd_append_none _ t _ (by decide)) (match_cmd_append_none _ t _ (by decide))
    (match_cmd_append_none _ t _ (by decide)) (match_cmd_append_none _ t _ (by decide))
    (match_cmd_append_none _ t _ (by decide)) (match_cmd_append_none _ t _ (by decide))
    (match_cmd_append_none _ t _ (by decide)) (match_cmd_append_none _ t _ (by decide))
    (match_cmd_append_none _ t _ (by decide)) (match_cmd_append_none _ t _ (by decide))
    (match_cmd_append_none _ t _ (by decide)) (match_cmd_append_none _ t _ (by decide))
    (match_cmd_append_none _ t _ (by decide)) (match_cmd_append_none _ t _ (by decide))

lemma parse_static_tty_line (pc : String → Bool → ConfState → Nat × ConfState)
    (w : World) (is_rcsd : Bool) (t : String) (st : ConfState) :
    parse_static pc w is_rcsd ("tty " ++ t) st = (1, st) :=
  parse_static_no_match pc w is_rcsd _ st
    (match_cmd_append_none _ t _ (by decide)) (match_cmd_append_none _ t _ (by decide))
    (match_cmd_append_none _ t _ (by decide)) (match_cmd_append_none _ t _ (by decide))
    (match_cmd_append_none _ t _ (by decide)) (match_cmd_append_none _ t _ (by decide))
    (match_cmd_append_none _ t _ (by decide)) (match_cmd_append_none _ t _ (by decide))
    (match_cmd_append_none _ t _ (by decide)) (match_cmd_append_none _ t _ (by decide))
    (match_cmd_append_none _ t _ (by decide)) (match_cmd_append_none _ t _ (by decide))
    (match_cmd_append_none _ t _ (by decide)) (match_cmd_append_none _ t _ (by decide))

lemma parse_dynamic_service_line (t : String) (arr : Nat → rlimit)
    (file : Option String) (st : ConfState) :
    parse_dynamic ("service " ++ t) arr file st
      = (0, service_register .service t arr file st, arr) := by
  simp only [parse_dynamic, match_cmd_append_self]

lemma parse_dynamic_task_line (t : String) (arr : Nat → rlimit)
    (file : Option String) (st : ConfState) :
    parse_dynamic ("task " ++ t) arr file st
      = (0, service_register .task t arr file st, arr) := by
  have n1 : match_cmd ("task " ++ t) "service " = none :=
    match_cmd_append_none _ t _ (by decide)
  simp only [parse_dynamic, n1, match_cmd_append_self]

lemma parse_dynamic_run_line (t : String) (arr : Nat → rlimit)
    (file : Option String) (st : ConfState) :
    parse_dynamic ("run " ++ t) arr file st
      = (0, service_register .run t arr file st, arr) := by
  have n1 : match_cmd ("run " ++ t) "service " = none :=
    match_cmd_append_none _ t _ (by decide)
  have n2 : match_cmd ("run " ++ t) "task " = none :=
    match_cmd_append_none _ t _ (by decide)
  simp only [parse_dynamic, n1, n2, match_cmd_append_self]

lemma parse_dynamic_sysv_line (t : String) (arr : Nat → rlimit)
    (file : Option String) (st : ConfState) :
    parse_dynamic ("sysv " ++ t) arr file st
      = (0, service_register .sysv t arr file st, arr) := by
  have n1 : match_cmd ("sysv " ++ t) "service " = none :=
    match_cmd_append_none _ t _ (by decide)
  have n2 : match_cmd ("sysv " ++ t) "task " = none :=
    match_cmd_append_none _ t _ (by decide)
  have n3 : match_cmd ("sysv " ++ t) "run " = none :=
    match_cmd_append_none _ t _ (by decide)
  simp only [parse_dynamic, n1, n2, n3, match_cmd_append_self]

lemma parse_dynamic_tty_line (t : String) (arr : Nat → rlimit)
    (file : Option String) (st : ConfState) :
    parse_dynamic ("tty " ++ t) arr file st
      = (0, service_register .tty (strip_line t) arr file st, arr) := by
  have n1 : match_cmd ("tty " ++ t) "service " = none :=
    match_cmd_append_none _ t _ (by decide)
  have n2 : match_cmd ("tty " ++ t) "task " = none :=
    match_cmd_append_none _ t _ (by decide)
  have n3 : match_cmd ("tty " ++ t) "run " = none :=
    match_cmd_append_none _ t _ (by decide)
  have n4 : match_cmd ("tty " ++ t) "sysv " = none :=
    match_cmd_append_none _ t _ (by decide)
  have n5 : match_cmd ("tty " ++ t) "rlimit " = none :=
    match_cmd_append_none _ t _ (by decide)
  have n6 : match_cmd ("tty " ++ t) "cgroup " = none :=
    match_cmd_append_none _ t _ (by decide)
  have n7 : match_cmd ("tty " ++ t) "cgroup." = none :=
    match_cmd_append_none _ t _ (by decide)
  simp only [parse_dynamic, n1, n2, n3, n4, n5, n6, n7, match_cmd_append_self]

lemma parse_line_service_line (pc : String → Bool → ConfState → Nat × ConfState)
    (w : World) (file : String) (is_rcsd : Bool) (st : ConfState)
    (lrl : Nat → rlimit) (t : String) :
    parse_line pc w file is_rcsd ("service " ++ t) st lrl
      = (service_register .service t (if is_rcsd then lrl else st.global_rlimit)
          (some file) st, lrl) := by
  cases is_rcsd <;>
    simp only [parse_line, parse_static_service_line, parse_line_dyn,
      parse_dynamic_service_line] <;>
    rfl

lemma parse_line_task_line (pc : String → Bool → ConfState → Nat × ConfState)
    (w : World) (file : String) (is_rcsd : Bool) (st : ConfState)
    (lrl : Nat → rlimit) (t : String) :
    parse_line pc w file is_rcsd ("task " ++ t) st lrl
      = (service_register .task t (if is_rcsd then lrl else st.global_rlimit)
          (some file) st, lrl) := by
  cases is_rcsd <;>
    simp only [parse_line, parse_static_task_line, parse_line_dyn,
      parse_dynamic_task_line] <;>
    rfl

lemma parse_line_run_line (pc : String → Bool → ConfState → Nat × ConfState)
    (w : World) (file : String) (is_rcsd : Bool) (st : ConfState)
    (lrl : Nat → rlimit) (t : String) :
    parse_line pc w file is_rcsd ("run " ++ t) st lrl
      = (service_register .run t (if is_rcsd then lrl else st.global_rlimit)
          (some file) st, lrl) := by
  cases is_rcsd <;>
    simp only [parse_line, parse_static_run_line, parse_line_dyn,
      parse_dynamic_run_line] <;>
    rfl

lemma parse_line_sysv_line (pc : String → Bool → ConfState → Nat × ConfState)
    (w : World) (file : String) (is_rcsd : Bool) (st : ConfState)
    (lrl : Nat → rlimit) (t : String) :
    parse_line pc w file is_rcsd ("sysv " ++ t) st lrl
      = (service_register .sysv t (if is_rcsd then lrl else st.global_rlimit)
          (some file) st, lrl) := by
  cases is_rcsd <;>
    simp only [parse_line, parse_static_sysv_line, parse_line_dyn,
      parse_dynamic_sysv_line] <;>
    rfl

lemma parse_line_tty_line (pc : String → Bool → ConfState → Nat × ConfState)
    (w : World) (file : String) (is_rcsd : Bool) (st : ConfState)
    (lrl : Nat → rlimit) (t : String) :
    parse_line pc w file is_rcsd ("tty " ++ t) st lrl
      = (service_register .tty (strip_line t)
          (if is_rcsd then lrl else st.global_rlimit) (some file) st, lrl) := by
  cases is_rcsd <;>
    simp only [parse_line, parse_static_tty_line, parse_line_dyn,
      parse_dynamic_tty_line] <;>
    rfl

lemma parse_conf_rcsd_start (fuel : Nat) (w : World) (file : String)
    (st : ConfState) (lines : List String)
    (ht : is_template file = none) (hfs : w.fs file = some lines) :
    parse_conf (fuel + 1) w file true st
      = (0, (parse_conf_lines (parse_conf fuel w) w file true "" lines
          { st with cgroup_current := "" } st.global_rlimit).1) := by
  rw [parse_conf, if_neg (by rw [ht]; exact fun h => Option.noConfusion h), hfs,
    ht]
  rfl

/-- Claim C8, corrected statement, over the line dispatcher and the file
parser: (a) a `cgroup.<name>` line sets the implicit context to the first
15 bytes of `<name>` and changes nothing else; (b) a line matching neither
`cgroup.` nor `include ` leaves the context unchanged, so the context
persists between switches within a file (an rcsd-scoped `include` resets
the shared context buffer, which is why it is excluded); (c) each dynamic
unit directive registers its unit carrying the context in force at its
line; (d) an rcsd-scoped file parse starts from an empty context. -/
theorem cgroup_context_for_units :
    (∀ (pc : String → Bool → ConfState → Nat × ConfState) (w : World)
        (file : String) (is_rcsd : Bool) (st : ConfState)
        (lrl : Nat → rlimit) (t : String),
      parse_line pc w file is_rcsd ("cgroup." ++ t) st lrl
        = ({ st with cgroup_current := List.asString (t.toList.take 15) }, lrl))
    ∧ (∀ (pc : String → Bool → ConfState → Nat × ConfState) (w : World)
        (file : String) (is_rcsd : Bool) (line : String) (st : ConfState)
        (lrl : Nat → rlimit),
      match_cmd line "cgroup." = none → match_cmd line "include " = none →
      (parse_line pc w file is_rcsd line st lrl).1.cgroup_current
        = st.cgroup_current)
    ∧ (∀ (pc : String → Bool → ConfState → Nat × ConfState) (w : World)
        (file : String) (is_rcsd : Bool) (st : ConfState)
        (lrl : Nat → rlimit) (t : String),
      parse_line pc w file is_rcsd ("service " ++ t) st lrl
        = (service_register .service t
            (if is_rcsd then lrl else st.global_rlimit) (some file) st, lrl)
      ∧ parse_line pc w file is_rcsd ("task " ++ t) st lrl
        = (service_register .task t
            (if is_rcsd then lrl else st.global_rlimit) (some file) st, lrl)
      ∧ parse_line pc w file is_rcsd ("run " ++ t) st lrl
        = (service_register .run t
            (if is_rcsd then lrl else st.global_rlimit) (some file) st, lrl)
      ∧ parse_line pc w file is_rcsd ("sysv " ++ t) st lrl
        = (service_register .sysv t
            (if is_rcsd then lrl else st.global_rlimit) (some file) st, lrl)
      ∧ parse_line pc w file is_rcsd ("tty " ++ t) st lrl
        = (service_register .tty (strip_line t)
            (if is_rcsd then lrl else st.global_rlimit) (some file) st, lrl))
    ∧ (∀ (e : RegEvent) (t : SvcType) (spec : String) (arr : Nat → rlimit)
        (file : Option String) (st : ConfState),
      e ∈ (service_register t spec arr file st).registered →
      e ∉ st.registered → e.cgroup = st.cgroup_current)
    ∧ (∀ (fuel : Nat) (w : World) (file : String) (st : ConfState)
        (lines : List String),
      is_template file = none → w.fs file = some lines →
      parse_conf (fuel + 1) w file true st
        = (0, (parse_conf_lines (parse_conf fuel w) w file true "" lines
            { st with cgroup_current := "" } st.global_rlimit).1)) := by
  refine ⟨parse_line_cgroup_switch, parse_line_cgroup_current, ?_, ?_, ?_⟩
  · intro pc w file is_rcsd st lrl t
    exact ⟨parse_line_service_line pc w file is_rcsd st lrl t,
      parse_line_task_line pc w file is_rcsd st lrl t,
      parse_line_run_line pc w file is_rcsd st lrl t,
      parse_line_sysv_line pc w file is_rcsd st lrl t,
      parse_line_tty_line pc w file is_rcsd st lrl t⟩
  · intro e t spec arr file st he hne
    rcases List.mem_append.mp he with h | h
    · exact absurd h hne
    · rw [List.mem_singleton.mp h]
  · intro fuel w file st lines ht hfs
    exact parse_conf_rcsd_start fuel w file st lines ht hfs

/-- Claim C8's witness: `cgroup_context_for_units` applied at a concrete
switch line, showing the context a subsequent `service` registration
carries. -/
theorem cgroup_context_for_units_witness :
    (parse_line (fun _ _ s => (1, s)) wEmpty "/etc/finit.d/a.conf" true
        ("cgroup." ++ "sys") initConfState (fun _ => { rlim_cur := 0, rlim_max := 0 }))
      = ({ initConfState with cgroup_current := List.asString ("sys".toList.take 15) },
          fun _ => { rlim_cur := 0, rlim_max := 0 }) :=
  cgroup_context_for_units.1 (fun _ _ s => (1, s)) wEmpty "/etc/finit.d/a.conf"
    true initConfState (fun _ => { rlim_cur := 0, rlim_max := 0 }) "sys"

/-- The truncation scenario of claim C8: an rcsd file switching to a
16-character cgroup name before declaring a service. -/
def wC8 : World :=
  { fs := fun f =>
      if f = "/etc/finit.d/a.conf" then
        some ["cgroup.sixteencharsname", "service x"]
      else none,
    fexists := fun _ => false, kmod_loaded := fun _ => false,
    globf := fun _ => [], lstatf := fun _ => none,
    rpath := fun _ => RPRes.enoent, etc_hostname := none,
    rescue := false, single := false, finit_conf := "/etc/finit.conf" }

/-- Claim C8, counterexample to the claim as stated: after the context
switch `cgroup.sixteencharsname`, the unit declared on the next line is
registered under the context `"sixteencharsnam"` — the first 15 bytes of
the name — and not under the full 16-character name. -/
theorem cgroup_context_truncated_cex :
    ((parse_conf 2 wC8 "/etc/finit.d/a.conf" true initConfState).2.registered.map
        (fun e => e.cgroup)) = ["sixteencharsnam"]
    ∧ "sixteencharsnam" ≠ "sixteencharsname" := by
  exact ⟨by decide, by decide⟩


end Finit
